import Mathlib

/-!
Verification development for an STDF (Standard Test Data Format) parser.

The parser reads a stream of length-prefixed binary records and assembles
them into a rectangular per-device table in two passes: pass 1 accumulates
per-(test, site, head) test metadata and merges it down to one entry per
test number, which fixes the column layout; pass 2 replays the stream and
builds one row per tested part, keyed by (head, site), then pads
multi-value results to a rectangular shape.

The definitions below are a shallow embedding of the Rust sources
(`records.rs`, `test_information.rs`, `data.rs`): hash maps become
association lists, fatal panics become `Except` errors, `u8/u16/u32`
become `Nat` (with an explicit wrap where the code can overflow), `i8/i16`
become `Int`, and `f32` values become an inductive that separates NaN from
ordinary numeric values (the engine never performs float arithmetic; it
only moves values around, so this separation is exact for its behavior).
-/

/-- An `f32` value as the row-assembly engine observes it: either NaN (used
as the "missing result" sentinel) or an ordinary numeric value. The engine
performs no arithmetic on results, so this is a faithful value model. -/
inductive F32 where
  | nan : F32
  | val : ℚ → F32
deriving DecidableEq, Repr, Inhabited

/-- The fatal (panic / expect) conditions of the Rust engine, surfaced as
typed errors so that the embedding is total. -/
inductive StdfError where
  /-- `TestInformation`/`MergedTestInformation` key-consistency panics. -/
  | keyMismatch : StdfError
  /-- "opening a specific head_num/site_num before closing the previous one!" -/
  | alreadyOpen : StdfError
  /-- "trying to add data to / close out a head_num/site_num that is not open!" -/
  | notOpen : StdfError
  /-- "found PTR/FTR/MPR with unknown test_num!" -/
  | unknownTestNum : StdfError
  /-- an out-of-bounds `Vec` index write -/
  | indexOutOfBounds : StdfError
deriving DecidableEq, Repr

instance {ε α : Type} [DecidableEq ε] [DecidableEq α] : DecidableEq (Except ε α) :=
  fun a b =>
    match a, b with
    | .ok x, .ok y =>
        if h : x = y then isTrue (by rw [h]) else
          isFalse (fun hc => h (Except.ok.inj hc))
    | .error x, .error y =>
        if h : x = y then isTrue (by rw [h]) else
          isFalse (fun hc => h (Except.error.inj hc))
    | .ok _, .error _ => isFalse (fun hc => Except.noConfusion hc)
    | .error _, .ok _ => isFalse (fun hc => Except.noConfusion hc)

/-- Association-list lookup (models `HashMap::get` / `entry` probing). -/
def alookup {κ α : Type} [DecidableEq κ] (k : κ) : List (κ × α) → Option α
  | [] => none
  | (k1, v1) :: rest => if k1 = k then some v1 else alookup k rest

/-- Replace the value stored at the first occurrence of key `k`
(models `HashMap` in-place modification of an existing entry). -/
def setVal {κ α : Type} [DecidableEq κ] (k : κ) (v : α) : List (κ × α) → List (κ × α)
  | [] => []
  | (k1, v1) :: rest => if k1 = k then (k, v) :: rest else (k1, v1) :: setVal k v rest

/-- Remove the first occurrence of key `k` (models `HashMap` entry removal). -/
def eraseKey {κ α : Type} [DecidableEq κ] (k : κ) : List (κ × α) → List (κ × α)
  | [] => []
  | (k1, v1) :: rest => if k1 = k then rest else (k1, v1) :: eraseKey k rest

theorem alookup_append {κ α : Type} [DecidableEq κ] (k : κ) (l1 l2 : List (κ × α)) :
    alookup k (l1 ++ l2) = ((alookup k l1).rec (alookup k l2) (fun v => some v)) := by
  induction l1 with
  | nil => simp [alookup]
  | cons p rest ih =>
    obtain ⟨k1, v1⟩ := p
    by_cases h : k1 = k <;> simp [alookup, h, ih]

theorem alookup_append_of_none {κ α : Type} [DecidableEq κ] (k : κ) (l1 l2 : List (κ × α))
    (h : alookup k l1 = none) : alookup k (l1 ++ l2) = alookup k l2 := by
  rw [alookup_append, h]

theorem alookup_append_of_some {κ α : Type} [DecidableEq κ] (k : κ) (l1 l2 : List (κ × α))
    (v : α) (h : alookup k l1 = some v) : alookup k (l1 ++ l2) = some v := by
  rw [alookup_append, h]

theorem alookup_setVal_self {κ α : Type} [DecidableEq κ] (k : κ) (v : α) (l : List (κ × α))
    (h : (alookup k l).isSome) : alookup k (setVal k v l) = some v := by
  induction l with
  | nil => simp [alookup] at h
  | cons p rest ih =>
    obtain ⟨k1, v1⟩ := p
    by_cases hk : k1 = k
    · simp [alookup, setVal, hk]
    · simp [alookup, setVal, hk] at h ⊢
      exact ih h

theorem alookup_setVal_ne {κ α : Type} [DecidableEq κ] (k k0 : κ) (v : α) (l : List (κ × α))
    (h : k0 ≠ k) : alookup k (setVal k0 v l) = alookup k l := by
  induction l with
  | nil => simp [setVal]
  | cons p rest ih =>
    obtain ⟨k1, v1⟩ := p
    by_cases hk : k1 = k0
    · subst hk
      simp [alookup, setVal, h]
    · simp [alookup, setVal, hk, ih]

theorem mem_setVal {κ α : Type} [DecidableEq κ] (k : κ) (v : α) (l : List (κ × α))
    (p : κ × α) (h : p ∈ setVal k v l) : p ∈ l ∨ p = (k, v) := by
  induction l with
  | nil => simp [setVal] at h
  | cons q rest ih =>
    obtain ⟨k1, v1⟩ := q
    by_cases hk : k1 = k
    · simp [setVal, hk] at h
      rcases h with h | h
      · right; simp [h]
      · left; exact List.mem_cons_of_mem _ h
    · simp [setVal, hk] at h
      rcases h with h | h
      · left; simp [h]
      · rcases ih h with h1 | h1
        · left; exact List.mem_cons_of_mem _ h1
        · right; exact h1

/-! ## Record reader (`records.rs`)

The byte source is a list of bytes (each a `Nat` below 256 in any real
file; the embedding does not need that bound). `read_exact` consumes
exactly `n` bytes or fails, like `Read::read_exact`.
-/

/-- `Read::read_exact`: take exactly `n` bytes from the stream, or fail. -/
def readExact (n : ℕ) (s : List ℕ) : Option (List ℕ × List ℕ) :=
  if n ≤ s.length then some (s.take n, s.drop n) else none

/-- The classification of a record from its (`rec_typ`, `rec_sub`) pair
(`record_types.rs`). -/
inductive RecordType where
  | FAR | ATR | MIR | MRR | PCR | HBR | SBR | PMR | PGR | PLR | RDR | SDR
  | WIR | WRR | WCR | PIR | PRR | TSR | PTR | MPR | FTR | BPS | EPS | GDR
  | DTR | PSR | VUR | InvalidRecord
deriving DecidableEq, Repr, Inhabited

/-- `RecordType::new`: the fixed (`rec_typ`, `rec_sub`) classification table. -/
def RecordType.new (rec_typ rec_sub : ℕ) : RecordType :=
  match rec_typ with
  | 0 => match rec_sub with
    | 10 => .FAR
    | 20 => .ATR
    | 30 => .VUR
    | _ => .InvalidRecord
  | 1 => match rec_sub with
    | 10 => .MIR
    | 20 => .MRR
    | 30 => .PCR
    | 40 => .HBR
    | 50 => .SBR
    | 60 => .PMR
    | 62 => .PGR
    | 63 => .PLR
    | 70 => .RDR
    | 80 => .SDR
    | 90 => .PSR
    | _ => .InvalidRecord
  | 2 => match rec_sub with
    | 10 => .WIR
    | 20 => .WRR
    | 30 => .WCR
    | _ => .InvalidRecord
  | 5 => match rec_sub with
    | 10 => .PIR
    | 20 => .PRR
    | _ => .InvalidRecord
  | 10 => match rec_sub with
    | 30 => .TSR
    | _ => .InvalidRecord
  | 15 => match rec_sub with
    | 10 => .PTR
    | 15 => .MPR
    | 20 => .FTR
    | _ => .InvalidRecord
  | 20 => match rec_sub with
    | 10 => .BPS
    | 20 => .EPS
    | _ => .InvalidRecord
  | 50 => match rec_sub with
    | 10 => .GDR
    | 30 => .DTR
    | _ => .InvalidRecord
  | _ => .InvalidRecord

/-- An STDF record header: `rec_len` content bytes follow the 4 header bytes. -/
structure Header where
  rec_len : ℕ
  rec_typ : ℕ
  rec_sub : ℕ
deriving DecidableEq, Repr

/-- `Header::from_bytes`: little-endian `u16` length then two type bytes. -/
def Header.from_bytes (bytes : List ℕ) : Header :=
  { rec_len := bytes.getD 0 0 + 256 * bytes.getD 1 0
    rec_typ := bytes.getD 2 0
    rec_sub := bytes.getD 3 0 }

/-- `Header::from_file`: read exactly 4 bytes and parse them. -/
def Header.from_file (s : List ℕ) : Option (Header × List ℕ) :=
  match readExact 4 s with
  | some (buf, rest) => some (Header.from_bytes buf, rest)
  | none => none

/-- The raw (undecoded) form of one record. -/
structure RawRecord where
  header : Header
  offset : ℕ
  contents : List ℕ
  rtype : RecordType
deriving DecidableEq, Repr

/-- `RawRecord::from_header`: read exactly `rec_len` content bytes. -/
def RawRecord.from_header (header : Header) (s : List ℕ) (offset : ℕ) :
    Option (RawRecord × List ℕ) :=
  match readExact header.rec_len s with
  | some (contents, rest) =>
      some ({ header, offset, contents, rtype := RecordType.new header.rec_typ header.rec_sub },
        rest)
  | none => none

/-- One step of `impl Iterator for Records`: a failed header read ends the
stream (`None`), then a failed content read ends the stream (`.ok()`
discards the error), and a successful step yields the record plus the rest
of the stream and the updated offset. -/
def recordsNext (s : List ℕ) (offset : ℕ) : Option (RawRecord × List ℕ × ℕ) :=
  match Header.from_file s with
  | some (header, rest) =>
      match RawRecord.from_header header rest (offset + header.rec_len) with
      | some (r, rest2) => some (r, rest2, offset + header.rec_len)
      | none => none
  | none => none

/-- C8: a short 4-byte header read ends the stream with `none`; a short
content read (fewer than `rec_len` bytes remaining) also ends the stream
with `none`; and a successful step yields a record with exactly `rec_len`
content bytes. The step function is total and returns an `Option`, never
an error value. -/
theorem c8_stream_truncation_is_end (s : List ℕ) (offset : ℕ) :
    (s.length < 4 → recordsNext s offset = none) ∧
    (s.length < 4 + (Header.from_bytes (s.take 4)).rec_len →
      recordsNext s offset = none) ∧
    (4 + (Header.from_bytes (s.take 4)).rec_len ≤ s.length →
      ∃ r rest, recordsNext s offset = some (r, rest,
          offset + (Header.from_bytes (s.take 4)).rec_len) ∧
        r.contents.length = (Header.from_bytes (s.take 4)).rec_len ∧
        r.header = Header.from_bytes (s.take 4) ∧
        rest = s.drop (4 + (Header.from_bytes (s.take 4)).rec_len)) := by
  refine ⟨?_, ?_, ?_⟩
  · intro h
    have h4 : ¬ (4 ≤ s.length) := by omega
    simp [recordsNext, Header.from_file, readExact, h4]
  · intro h
    by_cases h4 : 4 ≤ s.length
    · have hlen : ¬ ((Header.from_bytes (s.take 4)).rec_len ≤ s.length - 4) := by
        omega
      simp [recordsNext, Header.from_file, readExact, h4, RawRecord.from_header, hlen]
    · simp [recordsNext, Header.from_file, readExact, h4]
  · intro h
    have h4 : 4 ≤ s.length := by omega
    have hlen : (Header.from_bytes (s.take 4)).rec_len ≤ s.length - 4 := by
      omega
    refine ⟨{ header := Header.from_bytes (s.take 4)
              offset := offset + (Header.from_bytes (s.take 4)).rec_len
              contents := (s.drop 4).take (Header.from_bytes (s.take 4)).rec_len
              rtype := RecordType.new (Header.from_bytes (s.take 4)).rec_typ
                (Header.from_bytes (s.take 4)).rec_sub },
          s.drop (4 + (Header.from_bytes (s.take 4)).rec_len), ?_, ?_, ?_, ?_⟩
    · simp [recordsNext, Header.from_file, readExact, h4, RawRecord.from_header, hlen]
    · simp only [List.length_take, List.length_drop]
      omega
    · rfl
    · rfl

/-! ## Decoded records (`records/records.rs`)

Only the fields the aggregation engine reads are carried; payload fields
that no accumulator or state machine ever touches are omitted from the
embedding.
-/

/-- Site Description Record (consumed only as file-level metadata). -/
structure SDR where
  head_num : ℕ
  site_grp : ℕ
  site_cnt : ℕ
  site_num : List ℕ
deriving DecidableEq, Repr

/-- Test Synopsis Record. -/
structure TSR where
  head_num : ℕ
  site_num : ℕ
  test_typ : Char
  test_num : ℕ
  exec_cnt : ℕ
  fail_cnt : ℕ
  alrm_cnt : ℕ
  test_nam : String
  seq_name : String
  test_lbl : String
  opt_flag : ℕ
  test_tim : F32
  test_min : F32
  test_max : F32
  tst_sums : F32
  tst_sqrs : F32
deriving DecidableEq, Repr

/-- Wafer Information Record. -/
structure WIR where
  head_num : ℕ
  site_grp : ℕ
  start_t : ℕ
  wafer_id : String
deriving DecidableEq, Repr

/-- Wafer Results Record (the engine reads none of its fields). -/
structure WRR where
  head_num : ℕ
  site_grp : ℕ
  finish_t : ℕ
  part_cnt : ℕ
  wafer_id : String
deriving DecidableEq, Repr

/-- Part Information Record (opens a part on one (head, site)). -/
structure PIR where
  head_num : ℕ
  site_num : ℕ
deriving DecidableEq, Repr

/-- Part Results Record (closes a part on one (head, site)). -/
structure PRR where
  head_num : ℕ
  site_num : ℕ
  part_flg : ℕ
  num_test : ℕ
  hard_bin : ℕ
  soft_bin : ℕ
  x_coord : ℤ
  y_coord : ℤ
  test_t : ℕ
  part_id : String
  part_txt : String
  part_fix : List ℕ
deriving DecidableEq, Repr

/-- Parametric Test Record (single-value result). -/
structure PTR where
  test_num : ℕ
  head_num : ℕ
  site_num : ℕ
  test_flg : ℕ
  parm_flg : ℕ
  result : F32
  test_txt : String
  alarm_id : String
  opt_flag : ℕ
  res_scal : ℤ
  llm_scal : ℤ
  hlm_scal : ℤ
  lo_limit : F32
  hi_limit : F32
  units : String
  lo_spec : F32
  hi_spec : F32
deriving DecidableEq, Repr

/-- `PTR::pass`: bits 6 and 7 of `test_flg` both clear. -/
def PTR.pass (ptr : PTR) : Bool :=
  (ptr.test_flg >>> 6) &&& 3 == 0

/-- Functional Test Record. -/
structure FTR where
  test_num : ℕ
  head_num : ℕ
  site_num : ℕ
  test_flg : ℕ
  opt_flag : ℕ
deriving DecidableEq, Repr

/-- `FTR::get_passfail`: bit 7 of `test_flg` clear means pass. -/
def FTR.get_passfail (ftr : FTR) : Bool :=
  ftr.test_flg &&& 128 == 0

/-- Multiple-Result Parametric Record. -/
structure MPR where
  test_num : ℕ
  head_num : ℕ
  site_num : ℕ
  test_flg : ℕ
  parm_flg : ℕ
  rtn_stat : List ℕ
  rtn_rslt : List F32
  rtn_indx : List ℕ
deriving DecidableEq, Repr

/-- The resolved record sum type (`Record` in `records/records.rs`),
restricted to the variants the two aggregation passes dispatch on.
`other` stands for every remaining resolved record kind, all of which fall
through both passes untouched. -/
inductive Record where
  | SDR : SDR → Record
  | TSR : TSR → Record
  | WIR : WIR → Record
  | WRR : WRR → Record
  | PIR : PIR → Record
  | PRR : PRR → Record
  | PTR : PTR → Record
  | FTR : FTR → Record
  | MPR : MPR → Record
  | other : Record
deriving DecidableEq, Repr

/-! ## Test metadata accumulator (`test_information.rs`) -/

/-- `TestType`: the category of a test. -/
inductive TestType where
  /-- single-value parametric -/
  | P : TestType
  /-- functional (pass/fail) -/
  | F : TestType
  /-- multi-value parametric -/
  | M : TestType
  /-- scan -/
  | S : TestType
  /-- unknown -/
  | Unknown : TestType
deriving DecidableEq, Repr

/-- The `match tsr.test_typ` used by `new_from_tsr` and `add_from_tsr`. -/
def TestType.ofChar (c : Char) : TestType :=
  match c with
  | 'P' => .P
  | 'F' => .F
  | 'M' => .M
  | 'S' => .S
  | _ => .Unknown

/-- `Complete`: which of the TSR/PTR halves of a `TestInformation` have
been filled in. -/
inductive Complete where
  | PTR : Complete
  | TSR : Complete
  | Complete : Complete
deriving DecidableEq, Repr

/-- Per-(test, site, head) test metadata. -/
structure TestInformation where
  test_num : ℕ
  head_num : ℕ
  site_num : ℕ
  test_type : TestType
  execution_count : ℕ
  test_name : String
  sequence_name : String
  test_label : String
  test_time : F32
  test_text : String
  llm_scal : ℤ
  hlm_scal : ℤ
  res_scal : ℤ
  lo_spec : F32
  hi_spec : F32
  low_limit : F32
  high_limit : F32
  units : String
  complete : Complete
deriving DecidableEq, Repr

/-- `TestInformation::new_from_ptr`. -/
def TestInformation.new_from_ptr (ptr : PTR) : TestInformation :=
  { test_num := ptr.test_num
    head_num := ptr.head_num
    site_num := ptr.site_num
    test_type := .Unknown
    execution_count := 0
    test_name := ""
    sequence_name := ""
    test_label := ""
    test_time := F32.nan
    test_text := ptr.test_txt
    llm_scal := ptr.llm_scal
    hlm_scal := ptr.hlm_scal
    res_scal := ptr.res_scal
    lo_spec := ptr.lo_spec
    hi_spec := ptr.hi_spec
    low_limit := ptr.lo_limit
    high_limit := ptr.hi_limit
    units := ptr.units
    complete := .PTR }

/-- `TestInformation::new_from_tsr`. -/
def TestInformation.new_from_tsr (tsr : TSR) : TestInformation :=
  { test_num := tsr.test_num
    head_num := tsr.head_num
    site_num := tsr.site_num
    test_type := TestType.ofChar tsr.test_typ
    execution_count := tsr.exec_cnt
    test_name := tsr.test_nam
    sequence_name := tsr.seq_name
    test_label := tsr.test_lbl
    test_time := tsr.test_tim
    test_text := ""
    llm_scal := 0
    hlm_scal := 0
    res_scal := 0
    lo_spec := F32.nan
    hi_spec := F32.nan
    low_limit := F32.nan
    high_limit := F32.nan
    units := ""
    complete := .TSR }

/-- `TestInformation::add_from_tsr`: panics on a key mismatch; fills the
TSR-derived fields only when the entry is in the seen-only-PTR state. -/
def TestInformation.add_from_tsr (ti : TestInformation) (tsr : TSR) :
    Except StdfError TestInformation :=
  if ti.head_num ≠ tsr.head_num ∨ ti.site_num ≠ tsr.site_num ∨ ti.test_num ≠ tsr.test_num then
    .error .keyMismatch
  else
    match ti.complete with
    | .PTR =>
        .ok { ti with
          test_type := TestType.ofChar tsr.test_typ
          execution_count := tsr.exec_cnt
          test_name := tsr.test_nam
          sequence_name := tsr.seq_name
          test_label := tsr.test_lbl
          test_time := tsr.test_tim
          complete := .Complete }
    | _ => .ok ti

/-- `TestInformation::add_from_ptr`: panics on a key mismatch; fills the
PTR-derived fields only when the entry is in the seen-only-TSR state. -/
def TestInformation.add_from_ptr (ti : TestInformation) (ptr : PTR) :
    Except StdfError TestInformation :=
  if ti.head_num ≠ ptr.head_num ∨ ti.site_num ≠ ptr.site_num ∨ ti.test_num ≠ ptr.test_num then
    .error .keyMismatch
  else
    match ti.complete with
    | .TSR =>
        .ok { ti with
          llm_scal := ptr.llm_scal
          hlm_scal := ptr.hlm_scal
          res_scal := ptr.res_scal
          lo_spec := ptr.lo_spec
          hi_spec := ptr.hi_spec
          test_text := ptr.test_txt
          low_limit := ptr.lo_limit
          high_limit := ptr.hi_limit
          units := ptr.units
          complete := .Complete }
    | _ => .ok ti

/-- The per-site metadata table, keyed by (`test_num`, `site_num`, `head_num`). -/
structure FullTestInformation where
  test_infos : List ((ℕ × ℕ × ℕ) × TestInformation)
deriving DecidableEq, Repr

/-- `FullTestInformation::new`. -/
def FullTestInformation.new : FullTestInformation := ⟨[]⟩

/-- `FullTestInformation::add_from_ptr`: entry-or-insert on the key taken
from the PTR. Note: unlike `add_from_tsr`, there is no `head_num == 255`
guard here. -/
def FullTestInformation.add_from_ptr (fti : FullTestInformation) (ptr : PTR) :
    Except StdfError FullTestInformation :=
  let key := (ptr.test_num, ptr.site_num, ptr.head_num)
  match alookup key fti.test_infos with
  | some ti => do
      let ti1 ← ti.add_from_ptr ptr
      .ok ⟨setVal key ti1 fti.test_infos⟩
  | none => .ok ⟨fti.test_infos ++ [(key, TestInformation.new_from_ptr ptr)]⟩

/-- `FullTestInformation::add_from_tsr`: returns unchanged when
`head_num == 255`; otherwise entry-or-insert on the key from the TSR. -/
def FullTestInformation.add_from_tsr (fti : FullTestInformation) (tsr : TSR) :
    Except StdfError FullTestInformation :=
  if tsr.head_num = 255 then .ok fti
  else
    let key := (tsr.test_num, tsr.site_num, tsr.head_num)
    match alookup key fti.test_infos with
    | some ti => do
        let ti1 ← ti.add_from_tsr tsr
        .ok ⟨setVal key ti1 fti.test_infos⟩
    | none => .ok ⟨fti.test_infos ++ [(key, TestInformation.new_from_tsr tsr)]⟩

/-- Merged per-`test_num` metadata. -/
structure MergedTestInformation where
  test_num : ℕ
  test_type : TestType
  execution_count : ℕ
  test_name : String
  sequence_name : String
  test_label : String
  test_time : F32
  llm_scal : ℤ
  hlm_scal : ℤ
  res_scal : ℤ
  lo_spec : F32
  hi_spec : F32
  test_text : String
  low_limit : F32
  high_limit : F32
  units : String
deriving DecidableEq, Repr

/-- `MergedTestInformation::new_from_test_information`. -/
def MergedTestInformation.new_from_test_information (ti : TestInformation) :
    MergedTestInformation :=
  { test_num := ti.test_num
    test_type := ti.test_type
    execution_count := ti.execution_count
    test_name := ti.test_name
    sequence_name := ti.sequence_name
    test_label := ti.test_label
    test_time := ti.test_time
    llm_scal := ti.llm_scal
    hlm_scal := ti.hlm_scal
    res_scal := ti.res_scal
    lo_spec := ti.lo_spec
    hi_spec := ti.hi_spec
    test_text := ti.test_text
    low_limit := ti.low_limit
    high_limit := ti.high_limit
    units := ti.units }

/-- `MergedTestInformation::add`: panics when the `test_num`s disagree,
otherwise adds only to `execution_count` (a wrapping `u32` sum). -/
def MergedTestInformation.add (mti : MergedTestInformation) (ti : TestInformation) :
    Except StdfError MergedTestInformation :=
  if mti.test_num ≠ ti.test_num then .error .keyMismatch
  else .ok { mti with execution_count := (mti.execution_count + ti.execution_count) % 2 ^ 32 }

/-- The merged metadata table, keyed by `test_num`. -/
structure FullMergedTestInformation where
  test_infos : List (ℕ × MergedTestInformation)
deriving DecidableEq, Repr

/-- `FullMergedTestInformation::new`. -/
def FullMergedTestInformation.new : FullMergedTestInformation := ⟨[]⟩

/-- `FullMergedTestInformation::add_from_test_information`: entry-or-insert
keyed by the `TestInformation`'s `test_num`. -/
def FullMergedTestInformation.add_from_test_information
    (fmti : FullMergedTestInformation) (ti : TestInformation) :
    Except StdfError FullMergedTestInformation :=
  let key := ti.test_num
  match alookup key fmti.test_infos with
  | some mti => do
      let mti1 ← mti.add ti
      .ok ⟨setVal key mti1 fmti.test_infos⟩
  | none =>
      .ok ⟨fmti.test_infos ++ [(key, MergedTestInformation.new_from_test_information ti)]⟩

/-- `FullTestInformation::merge`: fold every stored `TestInformation` into
the merged table. -/
def FullTestInformation.merge (fti : FullTestInformation) :
    Except StdfError FullMergedTestInformation :=
  fti.test_infos.foldlM (fun acc p => acc.add_from_test_information p.2)
    FullMergedTestInformation.new

/-- The loop body of `FullTestInformation::from_fname` (pass 1): only TSR
and PTR records touch the metadata table. -/
def pass1Step (fti : FullTestInformation) (r : Record) :
    Except StdfError FullTestInformation :=
  match r with
  | .TSR tsr => fti.add_from_tsr tsr
  | .PTR ptr => fti.add_from_ptr ptr
  | _ => .ok fti

/-- `FullTestInformation::from_fname`, abstracted over the resolved record
stream: fold `pass1Step` over the records. -/
def FullTestInformation.from_records (rs : List Record) :
    Except StdfError FullTestInformation :=
  rs.foldlM pass1Step FullTestInformation.new

/-! ## Row assembly (`data.rs`) -/

/-- Test results for one individually tested device. -/
structure Row where
  part_id : String
  part_txt : String
  wafer_id : String
  x_coord : ℤ
  y_coord : ℤ
  head_num : ℕ
  site_num : ℕ
  sbin : ℕ
  hbin : ℕ
  results_parametric : List F32
  results_functional : List Bool
  results_multi_pin : List (List F32)
deriving DecidableEq, Repr, Inhabited

/-- `Row::new`: pre-sized result arrays (parametric slots NaN, functional
slots false, multi-value slots empty), coordinates at the -5000 sentinel,
bins 0, wafer id from the active wafer context if any. -/
def Row.new (pir : PIR) (num_tests_parametric num_tests_functional num_tests_multi_pin : ℕ)
    (wir : Option WIR) : Row :=
  { part_id := ""
    part_txt := ""
    wafer_id := match wir with
      | some w => w.wafer_id
      | none => ""
    x_coord := -5000
    y_coord := -5000
    head_num := pir.head_num
    site_num := pir.site_num
    sbin := 0
    hbin := 0
    results_parametric := List.replicate num_tests_parametric F32.nan
    results_functional := List.replicate num_tests_functional false
    results_multi_pin := List.replicate num_tests_multi_pin [] }

/-- The column-layout portion of the `TestData` state: the shared forward
map, the three per-category reverse maps and the three slot counters. -/
structure Layout where
  index_lookup : List (ℕ × ℕ)
  reverse_lookup_para : List (ℕ × ℕ)
  reverse_lookup_func : List (ℕ × ℕ)
  reverse_lookup_mult : List (ℕ × ℕ)
  n_para : ℕ
  n_func : ℕ
  n_mult : ℕ
deriving DecidableEq, Repr

/-- The body of the slot-assignment loop in `TestData::new`: a parametric,
functional or multi-value entry takes the next slot of its own partition;
scan/unknown entries are skipped. -/
def layoutStep (st : Layout) (p : ℕ × MergedTestInformation) : Layout :=
  match p.2.test_type with
  | .P =>
      { st with
        index_lookup := st.index_lookup ++ [(p.1, st.n_para)]
        reverse_lookup_para := st.reverse_lookup_para ++ [(st.n_para, p.1)]
        n_para := st.n_para + 1 }
  | .F =>
      { st with
        index_lookup := st.index_lookup ++ [(p.1, st.n_func)]
        reverse_lookup_func := st.reverse_lookup_func ++ [(st.n_func, p.1)]
        n_func := st.n_func + 1 }
  | .M =>
      { st with
        index_lookup := st.index_lookup ++ [(p.1, st.n_mult)]
        reverse_lookup_mult := st.reverse_lookup_mult ++ [(st.n_mult, p.1)]
        n_mult := st.n_mult + 1 }
  | _ => st

/-- Ordering of association-list entries by key (models
`sorted_by_key(|x| x.0)`). -/
def keyLE {β : Type} (a b : ℕ × β) : Prop := a.1 ≤ b.1

instance {β : Type} : DecidableRel (keyLE (β := β)) :=
  fun a b => inferInstanceAs (Decidable (a.1 ≤ b.1))

instance {β : Type} : IsTotal (ℕ × β) keyLE := ⟨fun a b => Nat.le_total a.1 b.1⟩

instance {β : Type} : IsTrans (ℕ × β) keyLE := ⟨fun _ _ _ h1 h2 => Nat.le_trans h1 h2⟩

/-- The slot-assignment loop of `TestData::new`: iterate the merged
entries in ascending `test_num` order, assigning sequential slot indices
within each category partition. -/
def buildLayout (tinfos : List (ℕ × MergedTestInformation)) : Layout :=
  (List.insertionSort keyLE tinfos).foldl layoutStep ⟨[], [], [], [], 0, 0, 0⟩

/-- The whole `TestData` state. -/
structure TestData where
  full_test_information : FullTestInformation
  test_information : FullMergedTestInformation
  index_lookup : List (ℕ × ℕ)
  data : List Row
  mpr_index_lookup : List (ℕ × List ℕ)
  temp_rows : List ((ℕ × ℕ) × Row)
  n_para : ℕ
  n_func : ℕ
  n_mult : ℕ
  reverse_lookup_para : List (ℕ × ℕ)
  reverse_lookup_func : List (ℕ × ℕ)
  reverse_lookup_mult : List (ℕ × ℕ)
  wir : Option WIR
deriving DecidableEq, Repr

/-- `TestData::new`: merge the metadata and fix the column layout. -/
def TestData.new (full_test_information : FullTestInformation) :
    Except StdfError TestData := do
  let test_information ← full_test_information.merge
  let L := buildLayout test_information.test_infos
  .ok
    { full_test_information := full_test_information
      test_information := test_information
      index_lookup := L.index_lookup
      data := []
      mpr_index_lookup := []
      temp_rows := []
      n_para := L.n_para
      n_func := L.n_func
      n_mult := L.n_mult
      reverse_lookup_para := L.reverse_lookup_para
      reverse_lookup_func := L.reverse_lookup_func
      reverse_lookup_mult := L.reverse_lookup_mult
      wir := none }

/-- `TestData::new_part`: fatal if a row for this (head, site) is already
open; otherwise allocate a pre-sized `Row`. -/
def TestData.new_part (td : TestData) (pir : PIR) : Except StdfError TestData :=
  let key := (pir.head_num, pir.site_num)
  match alookup key td.temp_rows with
  | none =>
      .ok { td with
        temp_rows := td.temp_rows ++
          [(key, Row.new pir td.n_para td.n_func td.n_mult td.wir)] }
  | some _ => .error .alreadyOpen

/-- `TestData::add_data_ptr`: fatal if the (head, site) row is not open or
the `test_num` has no slot; writes the single value into the parametric
slot (a Rust `Vec` index write, fatal when out of bounds). -/
def TestData.add_data_ptr (td : TestData) (ptr : PTR) : Except StdfError TestData :=
  let key := (ptr.head_num, ptr.site_num)
  let result := ptr.result
  match alookup key td.temp_rows with
  | some row =>
      match alookup ptr.test_num td.index_lookup with
      | some index =>
          if index < row.results_parametric.length then
            .ok { td with
              temp_rows := setVal key
                { row with results_parametric := row.results_parametric.set index result }
                td.temp_rows }
          else .error .indexOutOfBounds
      | none => .error .unknownTestNum
  | none => .error .notOpen

/-- `TestData::add_data_ftr`: as `add_data_ptr` but for the functional
partition, with the boolean derived by `FTR::get_passfail`. -/
def TestData.add_data_ftr (td : TestData) (ftr : FTR) : Except StdfError TestData :=
  let key := (ftr.head_num, ftr.site_num)
  let result := ftr.get_passfail
  match alookup key td.temp_rows with
  | some row =>
      match alookup ftr.test_num td.index_lookup with
      | some index =>
          if index < row.results_functional.length then
            .ok { td with
              temp_rows := setVal key
                { row with results_functional := row.results_functional.set index result }
                td.temp_rows }
          else .error .indexOutOfBounds
      | none => .error .unknownTestNum
  | none => .error .notOpen

/-- `TestData::add_data_mpr`: first records the pin-index order for this
`test_num` if it is new, then writes the result vector into the
multi-value slot (fatal if the row is not open or the `test_num` is
unknown). -/
def TestData.add_data_mpr (td : TestData) (mpr : MPR) : Except StdfError TestData :=
  let key := (mpr.head_num, mpr.site_num)
  let result := mpr.rtn_rslt
  let td :=
    match alookup mpr.test_num td.mpr_index_lookup with
    | none => { td with mpr_index_lookup := td.mpr_index_lookup ++ [(mpr.test_num, mpr.rtn_indx)] }
    | some _ => td
  match alookup key td.temp_rows with
  | some row =>
      match alookup mpr.test_num td.index_lookup with
      | some index =>
          if index < row.results_multi_pin.length then
            .ok { td with
              temp_rows := setVal key
                { row with results_multi_pin := row.results_multi_pin.set index result }
                td.temp_rows }
          else .error .indexOutOfBounds
      | none => .error .unknownTestNum
  | none => .error .notOpen

/-- `TestData::finish_part`: fatal if the (head, site) row is not open;
otherwise remove it from the open table, fill in identity, location and
bin fields from the PRR, and append it to the finished rows. -/
def TestData.finish_part (td : TestData) (prr : PRR) : Except StdfError TestData :=
  let key := (prr.head_num, prr.site_num)
  match alookup key td.temp_rows with
  | some row =>
      .ok { td with
        temp_rows := eraseKey key td.temp_rows
        data := td.data ++
          [{ row with
              part_id := prr.part_id
              part_txt := prr.part_txt
              x_coord := prr.x_coord
              y_coord := prr.y_coord
              sbin := prr.soft_bin
              hbin := prr.hard_bin }] }
  | none => .error .notOpen

/-- `TestData::new_wafer`. -/
def TestData.new_wafer (td : TestData) (wir : WIR) : TestData :=
  { td with wir := some wir }

/-- `TestData::close_wafer`. -/
def TestData.close_wafer (td : TestData) : TestData :=
  { td with wir := none }

/-- `Vec::resize(n, NAN)`: truncate to `n` elements or pad with NaN up to
`n` elements. -/
def vecResize (v : List F32) (n : ℕ) : List F32 :=
  v.take n ++ List.replicate (n - v.length) F32.nan

/-- The max-length scan of `normalize_multipin_results`, over one row's
multi-value vectors starting at slot `i`. -/
def rowMax (acc : List ℕ) (i : ℕ) : List (List F32) → List ℕ
  | [] => acc
  | v :: rest =>
      rowMax (if acc.getD i 0 < v.length then acc.set i v.length else acc) (i + 1) rest

/-- The padding pass of `normalize_multipin_results`, over one row's
multi-value vectors starting at slot `i`. -/
def padMulti (lengths : List ℕ) (i : ℕ) : List (List F32) → List (List F32)
  | [] => []
  | v :: rest => vecResize v (lengths.getD i 0) :: padMulti lengths (i + 1) rest

/-- `TestData::normalize_multipin_results`: find the largest vector length
for each multi-value slot across all finished rows, then resize every
row's vector in that slot to that length (padding with NaN). -/
def TestData.normalize_multipin_results (td : TestData) : TestData :=
  let lengths := td.data.foldl (fun acc row => rowMax acc 0 row.results_multi_pin)
    (List.replicate td.n_mult 0)
  { td with
    data := td.data.map (fun row =>
      { row with results_multi_pin := padMulti lengths 0 row.results_multi_pin }) }

/-- The loop body of `TestData::from_fname` (pass 2): dispatch on the
resolved record kind. -/
def pass2Step (td : TestData) (r : Record) : Except StdfError TestData :=
  match r with
  | .WIR wir => .ok (td.new_wafer wir)
  | .PIR pir => td.new_part pir
  | .PTR ptr => td.add_data_ptr ptr
  | .FTR ftr => td.add_data_ftr ftr
  | .MPR mpr => td.add_data_mpr mpr
  | .PRR prr => td.finish_part prr
  | .WRR _ => .ok td.close_wafer
  | _ => .ok td

/-- `TestData::from_fname`, abstracted over the resolved record stream:
pass 1 builds the metadata, `TestData::new` fixes the layout, pass 2
builds the rows, and the multi-value slots are normalized at the end. -/
def TestData.from_records (rs : List Record) : Except StdfError TestData := do
  let test_info ← FullTestInformation.from_records rs
  let td ← TestData.new test_info
  let td ← rs.foldlM pass2Step td
  .ok td.normalize_multipin_results

/-- One column's values in the tabular export. -/
inductive ColVal where
  | strs : List String → ColVal
  | ints : List ℤ → ColVal
  | nats : List ℕ → ColVal
  | f32s : List F32 → ColVal
  | bools : List Bool → ColVal
  | arrs : List (List F32) → ColVal
deriving DecidableEq, Repr

/-- The per-`test_num` parametric columns before sorting: slot `i`
contributes the column of every row's value at slot `i`, keyed by the
`test_num` that owns slot `i`. -/
def TestData.paraPairs (td : TestData) : List (ℕ × List F32) :=
  (List.range td.n_para).map (fun i =>
    ((alookup i td.reverse_lookup_para).getD 0,
      td.data.map (fun row => row.results_parametric.getD i F32.nan)))

/-- The per-`test_num` functional columns before sorting. -/
def TestData.funcPairs (td : TestData) : List (ℕ × List Bool) :=
  (List.range td.n_func).map (fun i =>
    ((alookup i td.reverse_lookup_func).getD 0,
      td.data.map (fun row => row.results_functional.getD i false)))

/-- The per-`test_num` multi-value columns before sorting. -/
def TestData.multPairs (td : TestData) : List (ℕ × List (List F32)) :=
  (List.range td.n_mult).map (fun i =>
    ((alookup i td.reverse_lookup_mult).getD 0,
      td.data.map (fun row => row.results_multi_pin.getD i [])))

/-- `impl Into<DataFrame> for &TestData`: the fixed identity/location/bin
columns in the order the code pushes them, then one column per parametric
slot, one per functional slot and one per multi-value slot, each group
sorted by `test_num` and named by it. -/
def TestData.toDataFrame (td : TestData) : List (String × ColVal) :=
  [("part_id", ColVal.strs (td.data.map Row.part_id)),
   ("part_txt", ColVal.strs (td.data.map Row.part_txt)),
   ("wafer_id", ColVal.strs (td.data.map Row.wafer_id)),
   ("x_coords", ColVal.ints (td.data.map Row.x_coord)),
   ("y_coords", ColVal.ints (td.data.map Row.y_coord)),
   ("head_nums", ColVal.nats (td.data.map Row.head_num)),
   ("sbins", ColVal.nats (td.data.map Row.sbin)),
   ("hbins", ColVal.nats (td.data.map Row.hbin))] ++
  (List.insertionSort keyLE td.paraPairs).map (fun p => (toString p.1, ColVal.f32s p.2)) ++
  (List.insertionSort keyLE td.funcPairs).map (fun p => (toString p.1, ColVal.bools p.2)) ++
  (List.insertionSort keyLE td.multPairs).map (fun p => (toString p.1, ColVal.arrs p.2))

/-! ## C1: the end-to-end synthetic scenario -/

/-- The rational value 3.5 (= 7/2) in lowest terms, written with the raw
constructor so that kernel reduction can evaluate equality tests on it. -/
def q35 : ℚ := ⟨7, 2, by decide, by decide⟩

/-- `q35` is the rational number 3.5. -/
theorem q35_eq : q35 = 7 / 2 := by
  rw [q35]
  rw [Rat.mk'_eq_divInt, Rat.divInt_eq_div]
  norm_num

/-- The synopsis record of the synthetic stream: test 100, parametric,
site 1, head 1, execution count 1. -/
def c1TSR : TSR :=
  { head_num := 1, site_num := 1, test_typ := 'P', test_num := 100, exec_cnt := 1,
    fail_cnt := 0, alrm_cnt := 0, test_nam := "", seq_name := "", test_lbl := "",
    opt_flag := 0, test_tim := F32.nan, test_min := F32.nan, test_max := F32.nan,
    tst_sums := F32.nan, tst_sqrs := F32.nan }

/-- The parametric result record of the synthetic stream: test 100,
value 3.5, head 1, site 1. -/
def c1PTR : PTR :=
  { test_num := 100, head_num := 1, site_num := 1, test_flg := 0, parm_flg := 0,
    result := F32.val q35, test_txt := "", alarm_id := "", opt_flag := 0,
    res_scal := 0, llm_scal := 0, hlm_scal := 0, lo_limit := F32.val 0,
    hi_limit := F32.val 0, units := "", lo_spec := F32.val 0, hi_spec := F32.val 0 }

/-- The part-start record of the synthetic stream: head 1, site 1. -/
def c1PIR : PIR := { head_num := 1, site_num := 1 }

/-- The part-end record of the synthetic stream: part "P1", soft bin 1,
hard bin 1. -/
def c1PRR : PRR :=
  { head_num := 1, site_num := 1, part_flg := 0, num_test := 1, hard_bin := 1,
    soft_bin := 1, x_coord := 0, y_coord := 0, test_t := 0, part_id := "P1",
    part_txt := "", part_fix := [] }

/-- The site-description record of the synthetic stream. -/
def c1SDR : SDR := { head_num := 1, site_grp := 1, site_cnt := 1, site_num := [1] }

/-- The synthetic stream of C1: the block
[SDR; TSR; PIR; PTR; PRR] followed by the same block with the PTR
omitted. -/
def c1Stream : List Record :=
  [.SDR c1SDR, .TSR c1TSR, .PIR c1PIR, .PTR c1PTR, .PRR c1PRR,
   .SDR c1SDR, .TSR c1TSR, .PIR c1PIR, .PRR c1PRR]

/-- C1 counterexample: on the synthetic stream the merged entry for test
100 has execution_count 1, not 2 — the second TSR sighting is ignored
because the (100, 1, 1) entry is already in the `Complete` state, so its
`exec_cnt` is never accumulated. -/
theorem c1_counterexample :
    (TestData.from_records c1Stream).map (fun td =>
        (alookup 100 td.test_information.test_infos).map
          MergedTestInformation.execution_count) ≠
      Except.ok (some 2) := by
  decide

/-- C1 (amended): pass 1 over the synthetic stream yields exactly one
merged test, with test_num 100 and execution_count 1 (not 2: the repeated
TSR is a no-op on an already-complete entry); pass 2 yields exactly two
finished rows, row 0's parametric slot 0 = 3.5, row 1's parametric slot
0 = NaN, and both rows have soft_bin 1, hard_bin 1 and part_id "P1". -/
theorem c1_end_to_end :
    (TestData.from_records c1Stream).map (fun td =>
        (td.test_information.test_infos.length,
         (alookup 100 td.test_information.test_infos).map
           MergedTestInformation.execution_count)) =
      Except.ok (1, some 1) ∧
    (TestData.from_records c1Stream).map (fun td =>
        td.data.map Row.results_parametric) =
      Except.ok [[F32.val (7 / 2)], [F32.nan]] ∧
    (TestData.from_records c1Stream).map (fun td =>
        td.data.map (fun r => (r.sbin, r.hbin, r.part_id))) =
      Except.ok [(1, 1, "P1"), (1, 1, "P1")] := by
  refine ⟨by decide, ?_, by decide⟩
  rw [show (7 / 2 : ℚ) = q35 from q35_eq.symm]
  decide

/-! ## C2: protocol violations are fatal -/

/-- C2: opening a (head, site) that already has an open row is a fatal
protocol violation; closing a (head, site) with no open row is a fatal
protocol violation; and a parametric result whose `test_num` has no slot
in `index_lookup` is a fatal protocol violation (the not-open error when
the row is closed, the unknown-test_num error when it is open). -/
theorem c2_protocol_violations_fatal (td : TestData) (pir : PIR) (prr : PRR) (ptr : PTR) :
    ((alookup (pir.head_num, pir.site_num) td.temp_rows).isSome →
      td.new_part pir = .error .alreadyOpen) ∧
    (alookup (prr.head_num, prr.site_num) td.temp_rows = none →
      td.finish_part prr = .error .notOpen) ∧
    (alookup ptr.test_num td.index_lookup = none →
      td.add_data_ptr ptr = .error .notOpen ∨
        td.add_data_ptr ptr = .error .unknownTestNum) := by
  refine ⟨?_, ?_, ?_⟩
  · intro h
    cases hx : alookup (pir.head_num, pir.site_num) td.temp_rows with
    | none => rw [hx] at h; simp at h
    | some row => simp [TestData.new_part, hx]
  · intro h
    simp [TestData.finish_part, h]
  · intro h
    cases hx : alookup (ptr.head_num, ptr.site_num) td.temp_rows with
    | none =>
        left
        simp [TestData.add_data_ptr, hx]
    | some row =>
        right
        simp [TestData.add_data_ptr, hx, h]

/-- A pre-sized row used to build concrete open/closed states for C2. -/
def c2Row : Row := Row.new { head_num := 1, site_num := 1 } 0 0 0 none

/-- A concrete `TestData` with an open row for (head 1, site 1) and an
empty column layout. -/
def c2Open : TestData :=
  { full_test_information := ⟨[]⟩
    test_information := ⟨[]⟩
    index_lookup := []
    data := []
    mpr_index_lookup := []
    temp_rows := [((1, 1), c2Row)]
    n_para := 0
    n_func := 0
    n_mult := 0
    reverse_lookup_para := []
    reverse_lookup_func := []
    reverse_lookup_mult := []
    wir := none }

/-- The same concrete `TestData` with no open row. -/
def c2Closed : TestData := { c2Open with temp_rows := [] }

/-- A part-start for (head 1, site 1). -/
def c2PIR : PIR := { head_num := 1, site_num := 1 }

/-- A part-end for (head 1, site 1). -/
def c2PRR : PRR :=
  { head_num := 1, site_num := 1, part_flg := 0, num_test := 0, hard_bin := 0,
    soft_bin := 0, x_coord := 0, y_coord := 0, test_t := 0, part_id := "",
    part_txt := "", part_fix := [] }

/-- A parametric result for test 5, which has no slot in `c2Open`. -/
def c2PTR : PTR :=
  { test_num := 5, head_num := 1, site_num := 1, test_flg := 0, parm_flg := 0,
    result := F32.nan, test_txt := "", alarm_id := "", opt_flag := 0,
    res_scal := 0, llm_scal := 0, hlm_scal := 0, lo_limit := F32.nan,
    hi_limit := F32.nan, units := "", lo_spec := F32.nan, hi_spec := F32.nan }

/-- Witness for C2 at concrete states. -/
theorem c2_protocol_violations_fatal_witness :
    c2Open.new_part c2PIR = .error .alreadyOpen ∧
    c2Closed.finish_part c2PRR = .error .notOpen ∧
    (c2Open.add_data_ptr c2PTR = .error .notOpen ∨
      c2Open.add_data_ptr c2PTR = .error .unknownTestNum) := by
  refine ⟨(c2_protocol_violations_fatal c2Open c2PIR c2PRR c2PTR).1 (by decide),
    (c2_protocol_violations_fatal c2Closed c2PIR c2PRR c2PTR).2.1 (by decide),
    (c2_protocol_violations_fatal c2Open c2PIR c2PRR c2PTR).2.2 (by decide)⟩

/-! ## C5: the head-255 sentinel -/

/-- A PTR for test 7, site 1, with the sentinel head number 255. -/
def c5PTR : PTR :=
  { test_num := 7, head_num := 255, site_num := 1, test_flg := 0, parm_flg := 0,
    result := F32.nan, test_txt := "", alarm_id := "", opt_flag := 0,
    res_scal := 0, llm_scal := 0, hlm_scal := 0, lo_limit := F32.nan,
    hi_limit := F32.nan, units := "", lo_spec := F32.nan, hi_spec := F32.nan }

/-- C5 counterexample: processing a PTR with head_num 255 on the empty
metadata table inserts a key whose head component is 255 — the table does
not stay unchanged and does contain a head-255 key. -/
theorem c5_counterexample :
    (FullTestInformation.new.add_from_ptr c5PTR).map
        (fun fti => fti.test_infos.map Prod.fst) =
      Except.ok [(7, 1, 255)] ∧
    FullTestInformation.new.add_from_ptr c5PTR ≠ Except.ok FullTestInformation.new := by
  exact ⟨by decide, by decide⟩

/-- C5 (amended): only the synopsis path skips the head-255 sentinel: a
TSR with head_num 255 leaves the metadata table unchanged, but a PTR with
head_num 255 is keyed and stored like any other, so the table can acquire
keys whose head component is 255 through results. -/
theorem c5_head255_sentinel (fti : FullTestInformation) (tsr : TSR) (ptr : PTR) :
    (tsr.head_num = 255 → fti.add_from_tsr tsr = .ok fti) ∧
    (ptr.head_num = 255 →
      alookup (ptr.test_num, ptr.site_num, ptr.head_num) fti.test_infos = none →
      ∃ fti1, fti.add_from_ptr ptr = .ok fti1 ∧
        alookup (ptr.test_num, ptr.site_num, 255) fti1.test_infos =
          some (TestInformation.new_from_ptr ptr)) := by
  refine ⟨?_, ?_⟩
  · intro h
    simp [FullTestInformation.add_from_tsr, h]
  · intro h255 hnone
    refine ⟨⟨fti.test_infos ++
      [((ptr.test_num, ptr.site_num, ptr.head_num), TestInformation.new_from_ptr ptr)]⟩, ?_, ?_⟩
    · simp [FullTestInformation.add_from_ptr, hnone]
    · rw [← h255]
      rw [alookup_append_of_none _ _ _ hnone]
      simp [alookup]

/-- A TSR for test 7, site 1, with the sentinel head number 255. -/
def c5TSR : TSR :=
  { head_num := 255, site_num := 1, test_typ := 'P', test_num := 7, exec_cnt := 3,
    fail_cnt := 0, alrm_cnt := 0, test_nam := "", seq_name := "", test_lbl := "",
    opt_flag := 0, test_tim := F32.nan, test_min := F32.nan, test_max := F32.nan,
    tst_sums := F32.nan, tst_sqrs := F32.nan }

/-- Witness for C5 at concrete records on the empty table. -/
theorem c5_head255_sentinel_witness :
    FullTestInformation.new.add_from_tsr c5TSR = .ok FullTestInformation.new ∧
    ∃ fti1, FullTestInformation.new.add_from_ptr c5PTR = .ok fti1 ∧
      alookup (7, 1, 255) fti1.test_infos = some (TestInformation.new_from_ptr c5PTR) := by
  exact ⟨(c5_head255_sentinel FullTestInformation.new c5TSR c5PTR).1 (by decide),
    (c5_head255_sentinel FullTestInformation.new c5TSR c5PTR).2 (by decide) (by decide)⟩

/-! ## C7: the merge only accumulates execution_count -/

/-- C7: adding a further `TestInformation` for a `test_num` already in the
merged table updates that entry to exactly the old entry with
`execution_count` increased by the added entry's count (as a wrapping u32
sum) — every other field is untouched — and no other entry changes. -/
theorem c7_merge_frame_effect (fmti : FullMergedTestInformation) (ti : TestInformation)
    (mti : MergedTestInformation)
    (hlk : alookup ti.test_num fmti.test_infos = some mti)
    (hkey : mti.test_num = ti.test_num) :
    ∃ fmti1, fmti.add_from_test_information ti = .ok fmti1 ∧
      alookup ti.test_num fmti1.test_infos =
        some { mti with
          execution_count := (mti.execution_count + ti.execution_count) % 2 ^ 32 } ∧
      ∀ t, t ≠ ti.test_num → alookup t fmti1.test_infos = alookup t fmti.test_infos := by
  refine ⟨⟨setVal ti.test_num
    { mti with execution_count := (mti.execution_count + ti.execution_count) % 2 ^ 32 }
    fmti.test_infos⟩, ?_, ?_, ?_⟩
  · simp only [FullMergedTestInformation.add_from_test_information, hlk,
      MergedTestInformation.add, hkey]
    rw [if_neg (fun hc => hc rfl)]
    rfl
  · exact alookup_setVal_self _ _ _ (by rw [hlk]; rfl)
  · intro t ht
    exact alookup_setVal_ne _ _ _ _ (Ne.symm ht)

/-- A concrete merged entry for test 9. -/
def c7MTI : MergedTestInformation :=
  { test_num := 9, test_type := .P, execution_count := 4, test_name := "a",
    sequence_name := "b", test_label := "c", test_time := F32.nan, llm_scal := 1,
    hlm_scal := 2, res_scal := 3, lo_spec := F32.nan, hi_spec := F32.nan,
    test_text := "d", low_limit := F32.nan, high_limit := F32.nan, units := "V" }

/-- A concrete `TestInformation` for test 9 on another site. -/
def c7TI : TestInformation :=
  { test_num := 9, head_num := 1, site_num := 2, test_type := .P,
    execution_count := 6, test_name := "x", sequence_name := "y", test_label := "z",
    test_time := F32.nan, test_text := "w", llm_scal := 7, hlm_scal := 8,
    res_scal := 9, lo_spec := F32.nan, hi_spec := F32.nan, low_limit := F32.nan,
    high_limit := F32.nan, units := "A", complete := .Complete }

/-- Witness for C7: adding `c7TI` to a table holding `c7MTI` under key 9
updates only the execution count (4 + 6 = 10). -/
theorem c7_merge_frame_effect_witness :
    ∃ fmti1, FullMergedTestInformation.add_from_test_information ⟨[(9, c7MTI)]⟩ c7TI =
        .ok fmti1 ∧
      alookup 9 fmti1.test_infos =
        some { c7MTI with execution_count := (4 + 6) % 2 ^ 32 } ∧
      ∀ t, t ≠ c7TI.test_num →
        alookup t fmti1.test_infos = alookup t ([(9, c7MTI)] : List (ℕ × MergedTestInformation)) := by
  exact c7_merge_frame_effect ⟨[(9, c7MTI)]⟩ c7TI c7MTI (by decide) (by decide)

/-- Witness for C8: a 2-byte stream ends at the header read; a 4-byte
header announcing 5 content bytes with none available ends at the content
read; a complete 6-byte stream with a 2-byte record succeeds with exactly
2 content bytes. -/
theorem c8_stream_truncation_is_end_witness :
    recordsNext [1, 2] 0 = none ∧
    recordsNext [5, 0, 1, 10] 0 = none ∧
    ∃ r rest, recordsNext [2, 0, 9, 9, 55, 66] 0 = some (r, rest,
        0 + (Header.from_bytes (List.take 4 [2, 0, 9, 9, 55, 66])).rec_len) ∧
      r.contents.length = (Header.from_bytes (List.take 4 [2, 0, 9, 9, 55, 66])).rec_len ∧
      r.header = Header.from_bytes (List.take 4 [2, 0, 9, 9, 55, 66]) ∧
      rest = List.drop (4 + (Header.from_bytes (List.take 4 [2, 0, 9, 9, 55, 66])).rec_len)
        [2, 0, 9, 9, 55, 66] := by
  refine ⟨(c8_stream_truncation_is_end [1, 2] 0).1 (by decide),
    (c8_stream_truncation_is_end [5, 0, 1, 10] 0).2.1 (by decide),
    (c8_stream_truncation_is_end [2, 0, 9, 9, 55, 66] 0).2.2 (by decide)⟩

/-! ## C3: multi-value rectangularization -/

theorem getD_set_ne {α : Type} (l : List α) (i j : ℕ) (a d : α) (h : i ≠ j) :
    (l.set i a).getD j d = l.getD j d := by
  simp [List.getD_eq_getElem?_getD, List.getElem?_set, h]

theorem getD_set_self {α : Type} (l : List α) (i : ℕ) (a d : α) (h : i < l.length) :
    (l.set i a).getD i d = a := by
  simp [List.getD_eq_getElem?_getD, List.getElem?_set, h]

theorem rowMax_length (vs : List (List F32)) :
    ∀ acc i, (rowMax acc i vs).length = acc.length := by
  induction vs with
  | nil => intro acc i; rfl
  | cons v rest ih =>
    intro acc i
    rw [rowMax, ih]
    by_cases h : acc.getD i 0 < v.length
    · rw [if_pos h, List.length_set]
    · rw [if_neg h]

theorem rowMax_getD_lt (vs : List (List F32)) :
    ∀ acc i j, j < i → (rowMax acc i vs).getD j 0 = acc.getD j 0 := by
  induction vs with
  | nil => intro acc i j _; rfl
  | cons v rest ih =>
    intro acc i j hj
    rw [rowMax, ih _ _ _ (by omega)]
    by_cases h : acc.getD i 0 < v.length
    · rw [if_pos h]
      exact getD_set_ne _ _ _ _ _ (by omega)
    · rw [if_neg h]

theorem rowMax_getD (vs : List (List F32)) :
    ∀ acc i k, i + k < acc.length →
      (rowMax acc i vs).getD (i + k) 0 =
        max (acc.getD (i + k) 0) ((vs.getD k []).length) := by
  induction vs with
  | nil =>
    intro acc i k _
    simp [rowMax, List.getD]
  | cons v rest ih =>
    intro acc i k hk
    match k with
    | 0 =>
        rw [rowMax, rowMax_getD_lt _ _ _ _ (by omega)]
        rw [Nat.add_zero] at hk ⊢
        rw [List.getD_cons_zero]
        by_cases h : acc.getD i 0 < v.length
        · rw [if_pos h, getD_set_self _ _ _ _ hk]
          exact (Nat.max_eq_right (le_of_lt h)).symm
        · rw [if_neg h]
          exact (Nat.max_eq_left (by omega)).symm
    | k1 + 1 =>
        rw [rowMax]
        have hif : (if acc.getD i 0 < v.length then acc.set i v.length else acc).length =
            acc.length := by
          by_cases h : acc.getD i 0 < v.length
          · rw [if_pos h, List.length_set]
          · rw [if_neg h]
        have harr : i + (k1 + 1) = (i + 1) + k1 := by omega
        rw [harr, ih _ _ _ (by rw [hif]; omega)]
        rw [List.getD_cons_succ]
        have hne : i ≠ (i + 1) + k1 := by omega
        by_cases h : acc.getD i 0 < v.length
        · rw [if_pos h, getD_set_ne _ _ _ _ _ hne]
        · rw [if_neg h]

/-- The largest element of a list of lengths (0 for the empty list). -/
def listMax (xs : List ℕ) : ℕ := xs.foldr max 0

theorem le_listMax (xs : List ℕ) (x : ℕ) (h : x ∈ xs) : x ≤ listMax xs := by
  induction xs with
  | nil => simp at h
  | cons a rest ih =>
    rcases List.mem_cons.mp h with h | h
    · rw [h, listMax, List.foldr_cons]
      exact le_max_left _ _
    · rw [listMax, List.foldr_cons]
      exact le_trans (ih h) (le_max_right _ _)

/-- The per-slot maximum scan of `normalize_multipin_results`, folded
over all finished rows. -/
def TestData.multipinLengths (td : TestData) : List ℕ :=
  td.data.foldl (fun acc row => rowMax acc 0 row.results_multi_pin)
    (List.replicate td.n_mult 0)

/-- The maximum length observed at multi-value slot `i` across all
finished rows (the quantity the spec calls the file-wide maximum width). -/
def maxWidth (td : TestData) (i : ℕ) : ℕ :=
  listMax (td.data.map (fun r => (r.results_multi_pin.getD i []).length))

theorem foldl_rowMax_length (rows : List Row) :
    ∀ acc : List ℕ,
      (rows.foldl (fun acc row => rowMax acc 0 row.results_multi_pin) acc).length =
        acc.length := by
  induction rows with
  | nil => intro acc; rfl
  | cons r rest ih =>
    intro acc
    rw [List.foldl_cons, ih, rowMax_length]

theorem foldl_rowMax_getD (rows : List Row) :
    ∀ acc : List ℕ, ∀ i, i < acc.length →
      (rows.foldl (fun acc row => rowMax acc 0 row.results_multi_pin) acc).getD i 0 =
        max (acc.getD i 0)
          (listMax (rows.map (fun r => (r.results_multi_pin.getD i []).length))) := by
  induction rows with
  | nil =>
    intro acc i _
    simp [listMax]
  | cons r rest ih =>
    intro acc i hi
    rw [List.foldl_cons, ih _ _ (by rw [rowMax_length]; exact hi)]
    have h0 : (rowMax acc 0 r.results_multi_pin).getD i 0 =
        max (acc.getD i 0) ((r.results_multi_pin.getD i []).length) := by
      have := rowMax_getD r.results_multi_pin acc 0 i (by omega)
      simpa using this
    rw [h0, List.map_cons]
    simp only [listMax, List.foldr_cons]
    rw [max_assoc]

theorem padMulti_length (vs : List (List F32)) :
    ∀ lengths i, (padMulti lengths i vs).length = vs.length := by
  induction vs with
  | nil => intro lengths i; rfl
  | cons v rest ih =>
    intro lengths i
    rw [padMulti, List.length_cons, List.length_cons, ih]

theorem padMulti_getD (vs : List (List F32)) :
    ∀ lengths i k, k < vs.length →
      (padMulti lengths i vs).getD k [] =
        vecResize (vs.getD k []) (lengths.getD (i + k) 0) := by
  induction vs with
  | nil => intro lengths i k hk; simp at hk
  | cons v rest ih =>
    intro lengths i k hk
    match k with
    | 0 =>
        rw [padMulti, List.getD_cons_zero, List.getD_cons_zero, Nat.add_zero]
    | k1 + 1 =>
        rw [padMulti, List.getD_cons_succ, List.getD_cons_succ]
        rw [ih lengths (i + 1) k1 (by simpa using hk)]
        congr 2
        omega

theorem vecResize_of_le (v : List F32) (n : ℕ) (h : v.length ≤ n) :
    vecResize v n = v ++ List.replicate (n - v.length) F32.nan := by
  rw [vecResize, List.take_of_length_le h]

theorem vecResize_length_of_le (v : List F32) (n : ℕ) (h : v.length ≤ n) :
    (vecResize v n).length = n := by
  rw [vecResize_of_le _ _ h, List.length_append, List.length_replicate]
  omega

/-- `normalize_multipin_results` spelled with the named per-slot maximum
scan (the `lengths` local of the source). -/
theorem normalize_multipin_eq (td : TestData) :
    td.normalize_multipin_results =
      { td with data := td.data.map (fun row =>
          { row with
            results_multi_pin := padMulti td.multipinLengths 0 row.results_multi_pin }) } := rfl

theorem multipinLengths_getD (td : TestData) (i : ℕ) (hi : i < td.n_mult) :
    td.multipinLengths.getD i 0 = maxWidth td i := by
  rw [TestData.multipinLengths,
    foldl_rowMax_getD _ _ _ (by rw [List.length_replicate]; exact hi)]
  have h0 : (List.replicate td.n_mult (0 : ℕ)).getD i 0 = 0 := by
    simp [List.getD_eq_getElem?_getD, List.getElem?_replicate, hi]
  rw [h0, maxWidth]
  exact Nat.max_eq_right (Nat.zero_le _)

/-- C3: after `normalize_multipin_results`, every row's vector at every
multi-value slot `i` equals the old vector extended with NaNs up to the
maximum length observed at slot `i` across all rows (so nothing is
truncated, a previously empty vector becomes all-NaN, and every vector's
length is exactly that maximum). -/
theorem c3_normalize_rectangular (td : TestData)
    (hrows : ∀ row ∈ td.data, row.results_multi_pin.length = td.n_mult) :
    td.normalize_multipin_results.data.length = td.data.length ∧
    (∀ j, j < td.data.length → ∀ i, i < td.n_mult →
      (td.normalize_multipin_results.data.getD j default).results_multi_pin.getD i [] =
        (td.data.getD j default).results_multi_pin.getD i [] ++
          List.replicate
            (maxWidth td i -
              ((td.data.getD j default).results_multi_pin.getD i []).length)
            F32.nan ∧
      ((td.normalize_multipin_results.data.getD j default).results_multi_pin.getD i []).length =
        maxWidth td i) := by
  constructor
  · rw [normalize_multipin_eq]
    exact List.length_map _ _
  · intro j hj i hi
    have hsome : td.data[j]? = some td.data[j] := List.getElem?_eq_getElem hj
    have hgetD : td.data.getD j default = td.data[j] := by
      rw [List.getD_eq_getElem?_getD, hsome]
      rfl
    have hmem : td.data[j] ∈ td.data := List.getElem_mem hj
    have hlenrow : td.data[j].results_multi_pin.length = td.n_mult := hrows _ hmem
    have hnorm : td.normalize_multipin_results.data.getD j default =
        { td.data[j] with
          results_multi_pin := padMulti td.multipinLengths 0
            td.data[j].results_multi_pin } := by
      rw [normalize_multipin_eq]
      simp only [List.getD_eq_getElem?_getD, List.getElem?_map, hsome, Option.map_some]
      rfl
    have hpad : (td.normalize_multipin_results.data.getD j default).results_multi_pin.getD i [] =
        vecResize (td.data[j].results_multi_pin.getD i []) (td.multipinLengths.getD i 0) := by
      rw [hnorm]
      have := padMulti_getD td.data[j].results_multi_pin td.multipinLengths 0 i
        (by rw [hlenrow]; exact hi)
      rw [Nat.zero_add] at this
      exact this
    have hle : (td.data[j].results_multi_pin.getD i []).length ≤ maxWidth td i := by
      apply le_listMax
      exact List.mem_map_of_mem _ hmem
    rw [hpad, multipinLengths_getD td i hi, hgetD]
    exact ⟨vecResize_of_le _ _ hle, vecResize_length_of_le _ _ hle⟩

/-- A finished row with multi-value vectors of lengths 1 and 0. -/
def c3RowA : Row :=
  { part_id := "", part_txt := "", wafer_id := "", x_coord := 0, y_coord := 0,
    head_num := 1, site_num := 1, sbin := 0, hbin := 0, results_parametric := [],
    results_functional := [], results_multi_pin := [[F32.nan], []] }

/-- A finished row with multi-value vectors of lengths 0 and 2. -/
def c3RowB : Row :=
  { c3RowA with results_multi_pin := [[], [F32.nan, F32.nan]] }

/-- A concrete finished `TestData` with two rows and two multi-value
slots of ragged widths. -/
def c3TD : TestData :=
  { full_test_information := ⟨[]⟩
    test_information := ⟨[]⟩
    index_lookup := []
    data := [c3RowA, c3RowB]
    mpr_index_lookup := []
    temp_rows := []
    n_para := 0
    n_func := 0
    n_mult := 2
    reverse_lookup_para := []
    reverse_lookup_func := []
    reverse_lookup_mult := []
    wir := none }

/-- Witness for C3: on `c3TD`, row 1's slot 0 (empty before the pass) is
padded to the slot-0 maximum. -/
theorem c3_normalize_rectangular_witness :
    c3TD.normalize_multipin_results.data.length = c3TD.data.length ∧
    ((c3TD.normalize_multipin_results.data.getD 1 default).results_multi_pin.getD 0 [] =
      (c3TD.data.getD 1 default).results_multi_pin.getD 0 [] ++
        List.replicate
          (maxWidth c3TD 0 -
            ((c3TD.data.getD 1 default).results_multi_pin.getD 0 []).length)
          F32.nan ∧
    ((c3TD.normalize_multipin_results.data.getD 1 default).results_multi_pin.getD 0 []).length =
      maxWidth c3TD 0) := by
  exact ⟨(c3_normalize_rectangular c3TD (by decide)).1,
    (c3_normalize_rectangular c3TD (by decide)).2 1 (by decide) 0 (by decide)⟩

/-! ## C4: column-layout bijectivity

The slot-assignment loop is characterized by three explicit entry lists:
`mixedEntries` (what it appends to the shared forward map), `revEntries`
(what it appends to one category's reverse map) and `catKeys` (the keys of
one category, in list order).
-/

/-- Whether a test category receives a column slot. -/
def TestType.active : TestType → Bool
  | .P => true
  | .F => true
  | .M => true
  | _ => false

/-- The three slot counters threaded through the assignment loop. -/
structure Counters where
  np : ℕ
  nf : ℕ
  nm : ℕ
deriving DecidableEq, Repr

/-- The counter belonging to one (active) category. -/
def Counters.proj : TestType → Counters → ℕ
  | .P, cs => cs.np
  | .F, cs => cs.nf
  | .M, cs => cs.nm
  | _, _ => 0

/-- Advance the counter of one category. -/
def Counters.bump : TestType → Counters → Counters
  | .P, cs => { cs with np := cs.np + 1 }
  | .F, cs => { cs with nf := cs.nf + 1 }
  | .M, cs => { cs with nm := cs.nm + 1 }
  | _, cs => cs

theorem proj_bump_self (c : TestType) (cs : Counters) (hc : c.active = true) :
    Counters.proj c (Counters.bump c cs) = Counters.proj c cs + 1 := by
  cases c <;> first | rfl | exact absurd hc (by decide)

theorem proj_bump_ne (c d : TestType) (cs : Counters) (hcd : c ≠ d) :
    Counters.proj c (Counters.bump d cs) = Counters.proj c cs := by
  cases c <;> cases d <;> first | rfl | exact absurd rfl hcd

/-- The (test_num, slot) pairs the assignment loop appends to the shared
forward map, starting from counters `cs`. -/
def mixedEntries (cs : Counters) : List (ℕ × MergedTestInformation) → List (ℕ × ℕ)
  | [] => []
  | p :: rest =>
      if p.2.test_type.active then
        (p.1, Counters.proj p.2.test_type cs) ::
          mixedEntries (Counters.bump p.2.test_type cs) rest
      else mixedEntries cs rest

/-- The (slot, test_num) pairs the loop appends to category `c`'s reverse
map, starting from slot `n`. -/
def revEntries (c : TestType) (n : ℕ) : List (ℕ × MergedTestInformation) → List (ℕ × ℕ)
  | [] => []
  | p :: rest =>
      if p.2.test_type = c then (n, p.1) :: revEntries c (n + 1) rest
      else revEntries c n rest

/-- The keys of category `c`, in list order. -/
def catKeys (c : TestType) (l : List (ℕ × MergedTestInformation)) : List ℕ :=
  (l.filter (fun p => p.2.test_type = c)).map Prod.fst

theorem catKeys_cons (c : TestType) (p : ℕ × MergedTestInformation)
    (rest : List (ℕ × MergedTestInformation)) :
    catKeys c (p :: rest) =
      if p.2.test_type = c then p.1 :: catKeys c rest else catKeys c rest := by
  by_cases h : p.2.test_type = c <;> simp [catKeys, h]

/-- The slot counters stored in a layout state. -/
def Layout.counters (st : Layout) : Counters := ⟨st.n_para, st.n_func, st.n_mult⟩

/-- Category selector for the slot counts of a layout. -/
def Layout.nOf : TestType → Layout → ℕ
  | .P, L => L.n_para
  | .F, L => L.n_func
  | .M, L => L.n_mult
  | _, _ => 0

/-- Category selector for the reverse maps of a layout. -/
def Layout.revOf : TestType → Layout → List (ℕ × ℕ)
  | .P, L => L.reverse_lookup_para
  | .F, L => L.reverse_lookup_func
  | .M, L => L.reverse_lookup_mult
  | _, _ => []

theorem foldl_layoutStep_index (l : List (ℕ × MergedTestInformation)) :
    ∀ st : Layout,
      (l.foldl layoutStep st).index_lookup =
        st.index_lookup ++ mixedEntries st.counters l := by
  induction l with
  | nil => intro st; simp [mixedEntries]
  | cons p rest ih =>
    intro st
    rw [List.foldl_cons, ih]
    obtain ⟨t, mti⟩ := p
    cases hc : mti.test_type <;>
      simp [layoutStep, hc, mixedEntries, TestType.active, Counters.proj, Counters.bump,
        Layout.counters]

theorem foldl_layoutStep_nOf (c : TestType) (hc : c.active = true)
    (l : List (ℕ × MergedTestInformation)) :
    ∀ st : Layout,
      (l.foldl layoutStep st).nOf c = st.nOf c + (catKeys c l).length := by
  induction l with
  | nil => intro st; simp [catKeys]
  | cons p rest ih =>
    intro st
    rw [List.foldl_cons, ih, catKeys_cons]
    obtain ⟨t, mti⟩ := p
    cases hd : mti.test_type <;> cases c <;>
      simp_all [layoutStep, Layout.nOf, TestType.active] <;> omega

theorem foldl_layoutStep_revOf (c : TestType) (hc : c.active = true)
    (l : List (ℕ × MergedTestInformation)) :
    ∀ st : Layout,
      (l.foldl layoutStep st).revOf c =
        st.revOf c ++ revEntries c (st.nOf c) l := by
  induction l with
  | nil => intro st; simp [revEntries]
  | cons p rest ih =>
    intro st
    rw [List.foldl_cons, ih, revEntries]
    obtain ⟨t, mti⟩ := p
    cases hd : mti.test_type <;> cases c <;>
      simp_all [layoutStep, Layout.revOf, Layout.nOf, TestType.active]

theorem catKeys_subset_keys (c : TestType) (l : List (ℕ × MergedTestInformation))
    (t : ℕ) (h : t ∈ catKeys c l) : t ∈ l.map Prod.fst :=
  ((List.filter_sublist l).map Prod.fst).mem h

theorem alookup_mixedEntries_of_mem (c : TestType) (hc : c.active = true)
    (l : List (ℕ × MergedTestInformation)) :
    ∀ cs t, (l.map Prod.fst).Nodup → t ∈ catKeys c l →
      alookup t (mixedEntries cs l) =
        some (Counters.proj c cs + List.indexOf t (catKeys c l)) := by
  induction l with
  | nil => intro cs t _ ht; simp [catKeys] at ht
  | cons p rest ih =>
    intro cs t hnd ht
    obtain ⟨k, mti⟩ := p
    have hnd1 : (rest.map Prod.fst).Nodup := (List.nodup_cons.mp hnd).2
    have hknotin : k ∉ rest.map Prod.fst := (List.nodup_cons.mp hnd).1
    rw [catKeys_cons] at ht ⊢
    by_cases hd : mti.test_type = c
    · rw [if_pos hd] at ht ⊢
      have hact : mti.test_type.active = true := by rw [hd]; exact hc
      rw [mixedEntries, if_pos hact]
      by_cases hkt : k = t
      · subst hkt
        rw [alookup, if_pos rfl, List.indexOf_cons_self, Nat.add_zero, hd]
      · have htrest : t ∈ catKeys c rest := by
          rcases List.mem_cons.mp ht with h | h
          · exact absurd h.symm hkt
          · exact h
        rw [alookup, if_neg hkt, ih _ _ hnd1 htrest, hd,
          proj_bump_self c cs hc, List.indexOf_cons_ne _ hkt]
        congr 1
        omega
    · rw [if_neg hd] at ht ⊢
      have hkt : k ≠ t := by
        intro hk
        exact hknotin (hk ▸ catKeys_subset_keys c rest t ht)
      by_cases hact : mti.test_type.active = true
      · rw [mixedEntries, if_pos hact, alookup, if_neg hkt, ih _ _ hnd1 ht,
          proj_bump_ne c mti.test_type cs (fun h => hd h.symm)]
      · rw [mixedEntries, if_neg (by simpa using hact), ih _ _ hnd1 ht]

theorem alookup_mixedEntries_none (l : List (ℕ × MergedTestInformation)) :
    ∀ cs t, (∀ mti, (t, mti) ∈ l → mti.test_type.active = false) →
      alookup t (mixedEntries cs l) = none := by
  induction l with
  | nil => intro cs t _; rfl
  | cons p rest ih =>
    intro cs t h
    obtain ⟨k, mti⟩ := p
    have hrest : ∀ m, (t, m) ∈ rest → m.test_type.active = false :=
      fun m hm => h m (List.mem_cons_of_mem _ hm)
    by_cases hact : mti.test_type.active = true
    · have hkt : k ≠ t := by
        intro hk
        subst hk
        exact absurd (h mti (List.mem_cons_self _ _)) (by simp [hact])
      rw [mixedEntries, if_pos hact, alookup, if_neg hkt, ih _ _ hrest]
    · rw [mixedEntries, if_neg (by simpa using hact), ih _ _ hrest]

theorem revEntries_eq_enumFrom (c : TestType) (l : List (ℕ × MergedTestInformation)) :
    ∀ n, revEntries c n l = List.enumFrom n (catKeys c l) := by
  induction l with
  | nil => intro n; simp [revEntries, catKeys]
  | cons p rest ih =>
    intro n
    rw [revEntries, catKeys_cons]
    by_cases hd : p.2.test_type = c
    · rw [if_pos hd, if_pos hd, ih, List.enumFrom]
    · rw [if_neg hd, if_neg hd, ih]

theorem alookup_enumFrom (ks : List ℕ) :
    ∀ n k, alookup (n + k) (List.enumFrom n ks) = ks[k]? := by
  induction ks with
  | nil => intro n k; simp [List.enumFrom, alookup]
  | cons x rest ih =>
    intro n k
    match k with
    | 0 =>
        rw [List.enumFrom, alookup, if_pos (by omega), List.getElem?_cons_zero]
    | k1 + 1 =>
        rw [List.enumFrom, alookup, if_neg (by omega)]
        have harr : n + (k1 + 1) = (n + 1) + k1 := by omega
        rw [harr, ih, List.getElem?_cons_succ]

theorem proj_zero (c : TestType) : Counters.proj c ⟨0, 0, 0⟩ = 0 := by
  cases c <;> rfl

theorem buildLayout_index (tinfos : List (ℕ × MergedTestInformation)) :
    (buildLayout tinfos).index_lookup =
      mixedEntries ⟨0, 0, 0⟩ (List.insertionSort keyLE tinfos) := by
  rw [buildLayout, foldl_layoutStep_index]
  rfl

theorem buildLayout_nOf (c : TestType) (hc : c.active = true)
    (tinfos : List (ℕ × MergedTestInformation)) :
    (buildLayout tinfos).nOf c =
      (catKeys c (List.insertionSort keyLE tinfos)).length := by
  rw [buildLayout, foldl_layoutStep_nOf c hc]
  cases c <;> simp [Layout.nOf]

theorem buildLayout_revOf (c : TestType) (hc : c.active = true)
    (tinfos : List (ℕ × MergedTestInformation)) :
    (buildLayout tinfos).revOf c =
      List.enumFrom 0 (catKeys c (List.insertionSort keyLE tinfos)) := by
  rw [buildLayout, foldl_layoutStep_revOf c hc, revEntries_eq_enumFrom]
  cases c <;> simp [Layout.revOf, Layout.nOf]

theorem mem_catKeys_iff (c : TestType) (l : List (ℕ × MergedTestInformation)) (t : ℕ) :
    t ∈ catKeys c l ↔ ∃ mti, (t, mti) ∈ l ∧ mti.test_type = c := by
  constructor
  · intro h
    rcases List.mem_map.mp h with ⟨p, hp, hpt⟩
    rcases List.mem_filter.mp hp with ⟨hpl, hq⟩
    refine ⟨p.2, ?_, by simpa using hq⟩
    rw [← hpt]
    simpa using hpl
  · intro h
    rcases h with ⟨mti, hm, hc2⟩
    exact List.mem_map.mpr ⟨(t, mti), List.mem_filter.mpr ⟨hm, by simpa using hc2⟩, rfl⟩

theorem mem_unique_of_nodup_keys {κ α : Type} (l : List (κ × α))
    (hnd : (l.map Prod.fst).Nodup) (t : κ) (a b : α)
    (ha : (t, a) ∈ l) (hb : (t, b) ∈ l) : a = b := by
  induction l with
  | nil => simp at ha
  | cons p rest ih =>
    obtain ⟨k, v⟩ := p
    have hknotin : k ∉ rest.map Prod.fst := (List.nodup_cons.mp hnd).1
    rcases List.mem_cons.mp ha with ha1 | ha1 <;> rcases List.mem_cons.mp hb with hb1 | hb1
    · exact congrArg Prod.snd (ha1.trans hb1.symm)
    · exfalso
      injection ha1 with h1 h2
      subst h1
      exact hknotin (List.mem_map_of_mem Prod.fst hb1)
    · exfalso
      injection hb1 with h1 h2
      subst h1
      exact hknotin (List.mem_map_of_mem Prod.fst ha1)
    · exact ih (List.nodup_cons.mp hnd).2 ha1 hb1

theorem indexOf_lt_of_lt (ks : List ℕ) (hnd : ks.Nodup) (hpw : ks.Pairwise (· ≤ ·))
    (t1 t2 : ℕ) (h1 : t1 ∈ ks) (h2 : t2 ∈ ks) (hlt : t1 < t2) :
    List.indexOf t1 ks < List.indexOf t2 ks := by
  have hi1 : List.indexOf t1 ks < ks.length := List.indexOf_lt_length.mpr h1
  have hi2 : List.indexOf t2 ks < ks.length := List.indexOf_lt_length.mpr h2
  rcases Nat.lt_trichotomy (List.indexOf t1 ks) (List.indexOf t2 ks) with h | h | h
  · exact h
  · have := (List.indexOf_inj h1 h2).mp h
    omega
  · have hle := (List.pairwise_iff_getElem.mp hpw) _ _ hi2 hi1 h
    rw [List.getElem_indexOf hi2, List.getElem_indexOf hi1] at hle
    omega

/-- C4: for every merged table with pairwise-distinct test numbers, within
each of the three active category partitions the `test_num` → slot
assignment of `TestData::new` is injective, total on the partition, its
range is exactly [0, N) where N is the number of merged tests of that
category, slots follow ascending `test_num` order, the forward map and
the partition's reverse map are mutually inverse, and scan/unknown
entries receive no slot. -/
theorem c4_layout_bijectivity (tinfos : List (ℕ × MergedTestInformation))
    (hnd : (tinfos.map Prod.fst).Nodup) :
    (∀ c, c.active = true →
      ((buildLayout tinfos).nOf c =
          (tinfos.filter (fun p => p.2.test_type = c)).length) ∧
      (∀ t mti, (t, mti) ∈ tinfos → mti.test_type = c →
        ∃ i, alookup t (buildLayout tinfos).index_lookup = some i ∧
          i < (buildLayout tinfos).nOf c ∧
          alookup i ((buildLayout tinfos).revOf c) = some t) ∧
      (∀ i, i < (buildLayout tinfos).nOf c →
        ∃ t mti, alookup i ((buildLayout tinfos).revOf c) = some t ∧
          (t, mti) ∈ tinfos ∧ mti.test_type = c ∧
          alookup t (buildLayout tinfos).index_lookup = some i) ∧
      (∀ t1 t2 mti1 mti2 i1 i2, (t1, mti1) ∈ tinfos → (t2, mti2) ∈ tinfos →
        mti1.test_type = c → mti2.test_type = c →
        alookup t1 (buildLayout tinfos).index_lookup = some i1 →
        alookup t2 (buildLayout tinfos).index_lookup = some i2 →
        (i1 = i2 → t1 = t2) ∧ (t1 < t2 → i1 < i2))) ∧
    (∀ t mti, (t, mti) ∈ tinfos → mti.test_type.active = false →
      alookup t (buildLayout tinfos).index_lookup = none) := by
  have hperm := List.perm_insertionSort keyLE tinfos
  have hnds : ((List.insertionSort keyLE tinfos).map Prod.fst).Nodup :=
    ((hperm.map Prod.fst).nodup_iff).mpr hnd
  have hpair : List.Pairwise keyLE (List.insertionSort keyLE tinfos) :=
    List.sorted_insertionSort keyLE tinfos
  constructor
  · intro c hc
    have hck_nodup : (catKeys c (List.insertionSort keyLE tinfos)).Nodup :=
      hnds.sublist ((List.filter_sublist _).map Prod.fst)
    have hck_pair : (catKeys c (List.insertionSort keyLE tinfos)).Pairwise (· ≤ ·) :=
      List.pairwise_map.mpr (hpair.sublist (List.filter_sublist _))
    have hforward : ∀ t, t ∈ catKeys c (List.insertionSort keyLE tinfos) →
        alookup t (buildLayout tinfos).index_lookup =
          some (List.indexOf t (catKeys c (List.insertionSort keyLE tinfos))) := by
      intro t ht
      rw [buildLayout_index,
        alookup_mixedEntries_of_mem c hc (List.insertionSort keyLE tinfos) _ t hnds ht,
        proj_zero c, Nat.zero_add]
    have hrev := buildLayout_revOf c hc tinfos
    have hn := buildLayout_nOf c hc tinfos
    refine ⟨?_, ?_, ?_, ?_⟩
    · rw [hn, catKeys, List.length_map]
      exact (hperm.filter _).length_eq
    · intro t mti hmem htype
      have htck : t ∈ catKeys c (List.insertionSort keyLE tinfos) :=
        (mem_catKeys_iff c _ t).mpr ⟨mti, hperm.mem_iff.mpr hmem, htype⟩
      refine ⟨List.indexOf t (catKeys c (List.insertionSort keyLE tinfos)),
        hforward t htck, ?_, ?_⟩
      · rw [hn]
        exact List.indexOf_lt_length.mpr htck
      · have halk := alookup_enumFrom (catKeys c (List.insertionSort keyLE tinfos)) 0
          (List.indexOf t (catKeys c (List.insertionSort keyLE tinfos)))
        rw [Nat.zero_add] at halk
        rw [hrev, halk,
          List.getElem?_eq_getElem (List.indexOf_lt_length.mpr htck),
          List.getElem_indexOf]
    · intro i hi
      rw [hn] at hi
      have htck : (catKeys c (List.insertionSort keyLE tinfos))[i] ∈
          catKeys c (List.insertionSort keyLE tinfos) := List.getElem_mem hi
      rcases (mem_catKeys_iff c _ _).mp htck with ⟨mti, hmem, htype⟩
      refine ⟨_, mti, ?_, hperm.mem_iff.mp hmem, htype, ?_⟩
      · have halk := alookup_enumFrom (catKeys c (List.insertionSort keyLE tinfos)) 0 i
        rw [Nat.zero_add] at halk
        rw [hrev, halk, List.getElem?_eq_getElem hi]
      · rw [hforward _ htck, List.indexOf_getElem hck_nodup i hi]
    · intro t1 t2 mti1 mti2 i1 i2 h1 h2 ht1 ht2 ha1 ha2
      have hc1 : t1 ∈ catKeys c (List.insertionSort keyLE tinfos) :=
        (mem_catKeys_iff c _ t1).mpr ⟨mti1, hperm.mem_iff.mpr h1, ht1⟩
      have hc2 : t2 ∈ catKeys c (List.insertionSort keyLE tinfos) :=
        (mem_catKeys_iff c _ t2).mpr ⟨mti2, hperm.mem_iff.mpr h2, ht2⟩
      have e1 : i1 = List.indexOf t1 (catKeys c (List.insertionSort keyLE tinfos)) := by
        have h := hforward t1 hc1
        rw [ha1] at h
        exact Option.some.inj h
      have e2 : i2 = List.indexOf t2 (catKeys c (List.insertionSort keyLE tinfos)) := by
        have h := hforward t2 hc2
        rw [ha2] at h
        exact Option.some.inj h
      constructor
      · intro hi12
        apply (List.indexOf_inj hc1 hc2).mp
        omega
      · intro hlt
        rw [e1, e2]
        exact indexOf_lt_of_lt _ hck_nodup hck_pair t1 t2 hc1 hc2 hlt
  · intro t mti hmem hact
    rw [buildLayout_index]
    apply alookup_mixedEntries_none
    intro m hm
    have hmeq : m = mti :=
      mem_unique_of_nodup_keys _ hnds t _ _ hm (hperm.mem_iff.mpr hmem)
    rw [hmeq]
    exact hact

/-- A minimal merged entry of a given test number and category. -/
def c4mkMTI (t : ℕ) (c : TestType) : MergedTestInformation :=
  { test_num := t, test_type := c, execution_count := 0, test_name := "",
    sequence_name := "", test_label := "", test_time := F32.nan, llm_scal := 0,
    hlm_scal := 0, res_scal := 0, lo_spec := F32.nan, hi_spec := F32.nan,
    test_text := "", low_limit := F32.nan, high_limit := F32.nan, units := "" }

/-- A concrete merged table with two parametric tests, one functional test
and one scan test, in unsorted order. -/
def c4List : List (ℕ × MergedTestInformation) :=
  [(3, c4mkMTI 3 .P), (1, c4mkMTI 1 .F), (2, c4mkMTI 2 .P), (5, c4mkMTI 5 .S)]

/-- Witness for C4 on `c4List`: the parametric partition has 2 slots, test
3 gets a slot below 2 that round-trips through the reverse map, and the
scan test 5 gets no slot. -/
theorem c4_layout_bijectivity_witness :
    (buildLayout c4List).nOf .P =
      (c4List.filter (fun p => p.2.test_type = TestType.P)).length ∧
    (∃ i, alookup 3 (buildLayout c4List).index_lookup = some i ∧
      i < (buildLayout c4List).nOf .P ∧
      alookup i ((buildLayout c4List).revOf .P) = some 3) ∧
    alookup 5 (buildLayout c4List).index_lookup = none := by
  refine ⟨((c4_layout_bijectivity c4List (by decide)).1 .P (by decide)).1,
    ((c4_layout_bijectivity c4List (by decide)).1 .P (by decide)).2.1 3 (c4mkMTI 3 .P)
      (by decide) (by decide),
    (c4_layout_bijectivity c4List (by decide)).2 5 (c4mkMTI 5 .S) (by decide) (by decide)⟩

/-! ## C6: the shape of the test-results export -/

theorem pairwise_lt_of_le_nodup (ks : List ℕ) (hle : ks.Pairwise (· ≤ ·))
    (hnd : ks.Nodup) : ks.Pairwise (· < ·) :=
  (hle.and hnd).imp (fun h => lt_of_le_of_ne h.1 h.2)

theorem drop_eight_cons {α : Type} (a b c d e f g h : α) (l : List α) :
    List.drop 8 ([a, b, c, d, e, f, g, h] ++ l) = l := rfl

/-- A concrete finalized `TestData` with one row and one parametric test
(test 100). -/
def c6TD : TestData :=
  { full_test_information := ⟨[]⟩
    test_information := ⟨[]⟩
    index_lookup := [(100, 0)]
    data := [{ part_id := "P1", part_txt := "", wafer_id := "", x_coord := 0,
               y_coord := 0, head_num := 1, site_num := 1, sbin := 1, hbin := 1,
               results_parametric := [F32.nan], results_functional := [],
               results_multi_pin := [] }]
    mpr_index_lookup := []
    temp_rows := []
    n_para := 1
    n_func := 0
    n_mult := 0
    reverse_lookup_para := [(0, 100)]
    reverse_lookup_func := []
    reverse_lookup_mult := []
    wir := none }

/-- C6 counterexample: the export of `c6TD` has the eight fixed columns
[part_id, part_txt, wafer_id, x_coords, y_coords, head_nums, sbins, hbins]
followed by the parametric column "100" — there is no site_num column. -/
theorem c6_counterexample :
    c6TD.toDataFrame.map Prod.fst =
      ["part_id", "part_txt", "wafer_id", "x_coords", "y_coords", "head_nums",
       "sbins", "hbins", "100"] ∧
    "site_num" ∉ c6TD.toDataFrame.map Prod.fst := by
  exact ⟨by decide, by decide⟩

/-- C6 (amended): for every finalized `TestData` whose reverse slot maps
are total and collision-free, the tabular export is the eight fixed
columns [part_id, part_txt, wafer_id, x_coords, y_coords, head_nums,
sbins, hbins] — with no site_num column — followed by one f32 column per
parametric slot, then one bool column per functional slot, then one
f32-array column per multi-value slot, each group named by `test_num` in
strictly ascending `test_num` order. -/
theorem c6_dataframe_shape (td : TestData)
    (hpara_tot : ∀ i, i < td.n_para → (alookup i td.reverse_lookup_para).isSome)
    (hfunc_tot : ∀ i, i < td.n_func → (alookup i td.reverse_lookup_func).isSome)
    (hmult_tot : ∀ i, i < td.n_mult → (alookup i td.reverse_lookup_mult).isSome)
    (hpara_nd : (td.paraPairs.map Prod.fst).Nodup)
    (hfunc_nd : (td.funcPairs.map Prod.fst).Nodup)
    (hmult_nd : (td.multPairs.map Prod.fst).Nodup) :
    td.toDataFrame.length = 8 + td.n_para + td.n_func + td.n_mult ∧
    td.toDataFrame.take 8 =
      [("part_id", ColVal.strs (td.data.map Row.part_id)),
       ("part_txt", ColVal.strs (td.data.map Row.part_txt)),
       ("wafer_id", ColVal.strs (td.data.map Row.wafer_id)),
       ("x_coords", ColVal.ints (td.data.map Row.x_coord)),
       ("y_coords", ColVal.ints (td.data.map Row.y_coord)),
       ("head_nums", ColVal.nats (td.data.map Row.head_num)),
       ("sbins", ColVal.nats (td.data.map Row.sbin)),
       ("hbins", ColVal.nats (td.data.map Row.hbin))] ∧
    (∃ ps : List (ℕ × List F32), ps.Perm td.paraPairs ∧ (ps.map Prod.fst).Pairwise (· < ·) ∧
      (td.toDataFrame.drop 8).take td.n_para =
        ps.map (fun p => (toString p.1, ColVal.f32s p.2))) ∧
    (∃ ps : List (ℕ × List Bool), ps.Perm td.funcPairs ∧ (ps.map Prod.fst).Pairwise (· < ·) ∧
      ((td.toDataFrame.drop 8).drop td.n_para).take td.n_func =
        ps.map (fun p => (toString p.1, ColVal.bools p.2))) ∧
    (∃ ps : List (ℕ × List (List F32)), ps.Perm td.multPairs ∧ (ps.map Prod.fst).Pairwise (· < ·) ∧
      ((td.toDataFrame.drop 8).drop td.n_para).drop td.n_func =
        ps.map (fun p => (toString p.1, ColVal.arrs p.2))) := by
  have hlenB : ((List.insertionSort keyLE td.paraPairs).map
      (fun p => (toString p.1, ColVal.f32s p.2))).length = td.n_para := by
    rw [List.length_map, List.length_insertionSort, TestData.paraPairs,
      List.length_map, List.length_range]
  have hlenC : ((List.insertionSort keyLE td.funcPairs).map
      (fun p => (toString p.1, ColVal.bools p.2))).length = td.n_func := by
    rw [List.length_map, List.length_insertionSort, TestData.funcPairs,
      List.length_map, List.length_range]
  have hlenD : ((List.insertionSort keyLE td.multPairs).map
      (fun p => (toString p.1, ColVal.arrs p.2))).length = td.n_mult := by
    rw [List.length_map, List.length_insertionSort, TestData.multPairs,
      List.length_map, List.length_range]
  have hdf : td.toDataFrame =
      [("part_id", ColVal.strs (td.data.map Row.part_id)),
       ("part_txt", ColVal.strs (td.data.map Row.part_txt)),
       ("wafer_id", ColVal.strs (td.data.map Row.wafer_id)),
       ("x_coords", ColVal.ints (td.data.map Row.x_coord)),
       ("y_coords", ColVal.ints (td.data.map Row.y_coord)),
       ("head_nums", ColVal.nats (td.data.map Row.head_num)),
       ("sbins", ColVal.nats (td.data.map Row.sbin)),
       ("hbins", ColVal.nats (td.data.map Row.hbin))] ++
      ((List.insertionSort keyLE td.paraPairs).map
          (fun p => (toString p.1, ColVal.f32s p.2)) ++
        ((List.insertionSort keyLE td.funcPairs).map
            (fun p => (toString p.1, ColVal.bools p.2)) ++
          (List.insertionSort keyLE td.multPairs).map
            (fun p => (toString p.1, ColVal.arrs p.2)))) := by
    rw [TestData.toDataFrame, List.append_assoc, List.append_assoc]
  refine ⟨?_, ?_, ?_, ?_, ?_⟩
  · rw [hdf]
    simp only [List.length_append, List.length_cons, List.length_nil, hlenB, hlenC, hlenD]
    omega
  · rw [hdf]
    exact List.take_left' rfl
  · refine ⟨List.insertionSort keyLE td.paraPairs, List.perm_insertionSort _ _, ?_, ?_⟩
    · apply pairwise_lt_of_le_nodup
      · exact List.pairwise_map.mpr (List.sorted_insertionSort keyLE td.paraPairs)
      · exact (((List.perm_insertionSort keyLE td.paraPairs).map Prod.fst).nodup_iff).mpr
          hpara_nd
    · rw [hdf, drop_eight_cons]
      exact List.take_left' hlenB
  · refine ⟨List.insertionSort keyLE td.funcPairs, List.perm_insertionSort _ _, ?_, ?_⟩
    · apply pairwise_lt_of_le_nodup
      · exact List.pairwise_map.mpr (List.sorted_insertionSort keyLE td.funcPairs)
      · exact (((List.perm_insertionSort keyLE td.funcPairs).map Prod.fst).nodup_iff).mpr
          hfunc_nd
    · rw [hdf, drop_eight_cons, List.drop_left' hlenB]
      exact List.take_left' hlenC
  · refine ⟨List.insertionSort keyLE td.multPairs, List.perm_insertionSort _ _, ?_, ?_⟩
    · apply pairwise_lt_of_le_nodup
      · exact List.pairwise_map.mpr (List.sorted_insertionSort keyLE td.multPairs)
      · exact (((List.perm_insertionSort keyLE td.multPairs).map Prod.fst).nodup_iff).mpr
          hmult_nd
    · rw [hdf, drop_eight_cons, List.drop_left' hlenB]
      exact List.drop_left' hlenC

/-- Witness for C6 on `c6TD`. -/
theorem c6_dataframe_shape_witness :
    c6TD.toDataFrame.length = 8 + c6TD.n_para + c6TD.n_func + c6TD.n_mult ∧
    (∃ ps : List (ℕ × List F32), ps.Perm c6TD.paraPairs ∧ (ps.map Prod.fst).Pairwise (· < ·) ∧
      (c6TD.toDataFrame.drop 8).take c6TD.n_para =
        ps.map (fun p => (toString p.1, ColVal.f32s p.2))) := by
  refine ⟨(c6_dataframe_shape c6TD ?_ ?_ ?_ ?_ ?_ ?_).1,
    (c6_dataframe_shape c6TD ?_ ?_ ?_ ?_ ?_ ?_).2.2.1⟩ <;> exact by decide

/-! ## C9 and C10: shared pipeline lemmas -/

theorem alookup_eq_none_iff {κ α : Type} [DecidableEq κ] (k : κ) (l : List (κ × α)) :
    alookup k l = none ↔ k ∉ l.map Prod.fst := by
  induction l with
  | nil => simp [alookup]
  | cons p rest ih =>
    obtain ⟨k1, v1⟩ := p
    by_cases hk : k1 = k
    · subst hk
      simp [alookup]
    · rw [alookup, if_neg hk, ih]
      simp only [List.map_cons, List.mem_cons]
      constructor
      · intro hnot h
        rcases h with h | h
        · exact hk h.symm
        · exact hnot h
      · intro hnot h
        exact hnot (Or.inr h)

theorem mem_of_alookup_eq_some {κ α : Type} [DecidableEq κ] (k : κ) (l : List (κ × α))
    (v : α) (h : alookup k l = some v) : (k, v) ∈ l := by
  induction l with
  | nil => simp [alookup] at h
  | cons p rest ih =>
    obtain ⟨k1, v1⟩ := p
    by_cases hk : k1 = k
    · subst hk
      rw [alookup, if_pos rfl] at h
      rw [← Option.some.inj h]
      exact List.mem_cons_self _ _
    · rw [alookup, if_neg hk] at h
      exact List.mem_cons_of_mem _ (ih h)

theorem setVal_map_fst {κ α : Type} [DecidableEq κ] (k : κ) (v : α) (l : List (κ × α)) :
    (setVal k v l).map Prod.fst = l.map Prod.fst := by
  induction l with
  | nil => rfl
  | cons p rest ih =>
    obtain ⟨k1, v1⟩ := p
    by_cases hk : k1 = k
    · subst hk
      simp [setVal]
    · simp [setVal, hk, ih]

theorem nodup_append_singleton {α : Type} (l : List α) (x : α) (hnd : l.Nodup)
    (hx : x ∉ l) : (l ++ [x]).Nodup := by
  rw [List.nodup_append]
  refine ⟨hnd, List.nodup_singleton x, ?_⟩
  intro a ha hax
  rw [List.mem_singleton] at hax
  exact hx (hax ▸ ha)

theorem foldlM_cons_ok {σ α : Type} (f : σ → α → Except StdfError σ) (a : α) (l : List α)
    (s0 s2 : σ) (h : List.foldlM f s0 (a :: l) = .ok s2) :
    ∃ s1, f s0 a = .ok s1 ∧ List.foldlM f s1 l = .ok s2 := by
  rw [List.foldlM_cons] at h
  cases hf : f s0 a with
  | error e =>
      rw [hf] at h
      exact Except.noConfusion h
  | ok s1 =>
      rw [hf] at h
      exact ⟨s1, rfl, h⟩

theorem add_from_tsr_test_num (ti ti1 : TestInformation) (tsr : TSR)
    (h : ti.add_from_tsr tsr = .ok ti1) : ti1.test_num = ti.test_num := by
  rw [TestInformation.add_from_tsr] at h
  by_cases hkey : ti.head_num ≠ tsr.head_num ∨ ti.site_num ≠ tsr.site_num ∨
      ti.test_num ≠ tsr.test_num
  · rw [if_pos hkey] at h
    exact Except.noConfusion h
  · rw [if_neg hkey] at h
    split at h <;> rw [← Except.ok.inj h]

theorem add_from_ptr_test_num (ti ti1 : TestInformation) (ptr : PTR)
    (h : ti.add_from_ptr ptr = .ok ti1) : ti1.test_num = ti.test_num := by
  rw [TestInformation.add_from_ptr] at h
  by_cases hkey : ti.head_num ≠ ptr.head_num ∨ ti.site_num ≠ ptr.site_num ∨
      ti.test_num ≠ ptr.test_num
  · rw [if_pos hkey] at h
    exact Except.noConfusion h
  · rw [if_neg hkey] at h
    split at h <;> rw [← Except.ok.inj h]

theorem pass1Step_no_key (t : ℕ) (acc mid : FullTestInformation) (r : Record)
    (hok : pass1Step acc r = .ok mid)
    (htsr : ∀ tsr, r = Record.TSR tsr → tsr.test_num ≠ t)
    (hptr : ∀ ptr, r = Record.PTR ptr → ptr.test_num ≠ t)
    (hacc : ∀ s h, alookup (t, s, h) acc.test_infos = none) :
    ∀ s h, alookup (t, s, h) mid.test_infos = none := by
  intro s h
  cases r with
  | TSR tsr =>
      have hne : tsr.test_num ≠ t := htsr tsr rfl
      have hkne : ((tsr.test_num, tsr.site_num, tsr.head_num) : ℕ × ℕ × ℕ) ≠ (t, s, h) :=
        fun heq => hne (congrArg Prod.fst heq)
      rw [pass1Step, FullTestInformation.add_from_tsr] at hok
      by_cases h255 : tsr.head_num = 255
      · rw [if_pos h255] at hok
        rw [← Except.ok.inj hok]
        exact hacc s h
      · rw [if_neg h255] at hok
        dsimp only at hok
        split at hok
        next ti hl =>
          cases hadd : ti.add_from_tsr tsr with
          | error e =>
              rw [hadd] at hok
              exact Except.noConfusion hok
          | ok ti1 =>
              rw [hadd] at hok
              rw [← Except.ok.inj hok]
              rw [alookup_setVal_ne _ _ _ _ hkne]
              exact hacc s h
        next hl =>
          rw [← Except.ok.inj hok]
          rw [alookup_append_of_none _ _ _ (hacc s h)]
          simp [alookup, hkne]
  | PTR ptr =>
      have hne : ptr.test_num ≠ t := hptr ptr rfl
      have hkne : ((ptr.test_num, ptr.site_num, ptr.head_num) : ℕ × ℕ × ℕ) ≠ (t, s, h) :=
        fun heq => hne (congrArg Prod.fst heq)
      rw [pass1Step, FullTestInformation.add_from_ptr] at hok
      split at hok
      next ti hl =>
        cases hadd : ti.add_from_ptr ptr with
        | error e =>
            rw [hadd] at hok
            exact Except.noConfusion hok
        | ok ti1 =>
            rw [hadd] at hok
            rw [← Except.ok.inj hok]
            rw [alookup_setVal_ne _ _ _ _ hkne]
            exact hacc s h
      next hl =>
        rw [← Except.ok.inj hok]
        rw [alookup_append_of_none _ _ _ (hacc s h)]
        simp [alookup, hkne]
  | SDR sdr =>
      rw [← Except.ok.inj hok]
      exact hacc s h
  | WIR wir =>
      rw [← Except.ok.inj hok]
      exact hacc s h
  | WRR wrr =>
      rw [← Except.ok.inj hok]
      exact hacc s h
  | PIR pir =>
      rw [← Except.ok.inj hok]
      exact hacc s h
  | PRR prr =>
      rw [← Except.ok.inj hok]
      exact hacc s h
  | FTR ftr =>
      rw [← Except.ok.inj hok]
      exact hacc s h
  | MPR mpr =>
      rw [← Except.ok.inj hok]
      exact hacc s h
  | other =>
      rw [← Except.ok.inj hok]
      exact hacc s h

theorem pass1_foldlM_no_key (t : ℕ) (rs : List Record) :
    ∀ acc fti, List.foldlM pass1Step acc rs = .ok fti →
      (∀ r ∈ rs, (∀ tsr, r = Record.TSR tsr → tsr.test_num ≠ t) ∧
        (∀ ptr, r = Record.PTR ptr → ptr.test_num ≠ t)) →
      (∀ s h, alookup (t, s, h) acc.test_infos = none) →
      ∀ s h, alookup (t, s, h) fti.test_infos = none := by
  induction rs with
  | nil =>
    intro acc fti hok _ hacc
    rw [List.foldlM_nil] at hok
    rw [← Except.ok.inj hok]
    exact hacc
  | cons r rest ih =>
    intro acc fti hok hr hacc
    obtain ⟨mid, hstep, hrest⟩ := foldlM_cons_ok pass1Step r rest acc fti hok
    have hhead := hr r (List.mem_cons_self _ _)
    exact ih mid fti hrest (fun q hq => hr q (List.mem_cons_of_mem _ hq))
      (pass1Step_no_key t acc mid r hstep hhead.1 hhead.2 hacc)

theorem pass1Step_key_consistent (acc mid : FullTestInformation) (r : Record)
    (hok : pass1Step acc r = .ok mid)
    (hacc : ∀ p ∈ acc.test_infos, p.2.test_num = p.1.1) :
    ∀ p ∈ mid.test_infos, p.2.test_num = p.1.1 := by
  intro p hp
  cases r with
  | TSR tsr =>
      rw [pass1Step, FullTestInformation.add_from_tsr] at hok
      by_cases h255 : tsr.head_num = 255
      · rw [if_pos h255] at hok
        rw [← Except.ok.inj hok] at hp
        exact hacc p hp
      · rw [if_neg h255] at hok
        dsimp only at hok
        split at hok
        next ti hl =>
          cases hadd : ti.add_from_tsr tsr with
          | error e =>
              rw [hadd] at hok
              exact Except.noConfusion hok
          | ok ti1 =>
              rw [hadd] at hok
              rw [← Except.ok.inj hok] at hp
              rcases mem_setVal _ _ _ _ hp with hmem | heq
              · exact hacc p hmem
              · rw [heq]
                have h1 : ti1.test_num = ti.test_num := add_from_tsr_test_num ti ti1 tsr hadd
                have h2 := hacc _ (mem_of_alookup_eq_some _ _ _ hl)
                simpa using h1.trans h2
        next hl =>
          rw [← Except.ok.inj hok] at hp
          rcases List.mem_append.mp hp with hmem | hmem
          · exact hacc p hmem
          · rw [List.mem_singleton] at hmem
            rw [hmem]
            rfl
  | PTR ptr =>
      rw [pass1Step, FullTestInformation.add_from_ptr] at hok
      split at hok
      next ti hl =>
        cases hadd : ti.add_from_ptr ptr with
        | error e =>
            rw [hadd] at hok
            exact Except.noConfusion hok
        | ok ti1 =>
            rw [hadd] at hok
            rw [← Except.ok.inj hok] at hp
            rcases mem_setVal _ _ _ _ hp with hmem | heq
            · exact hacc p hmem
            · rw [heq]
              have h1 : ti1.test_num = ti.test_num := add_from_ptr_test_num ti ti1 ptr hadd
              have h2 := hacc _ (mem_of_alookup_eq_some _ _ _ hl)
              simpa using h1.trans h2
      next hl =>
        rw [← Except.ok.inj hok] at hp
        rcases List.mem_append.mp hp with hmem | hmem
        · exact hacc p hmem
        · rw [List.mem_singleton] at hmem
          rw [hmem]
          rfl
  | SDR sdr =>
      rw [← Except.ok.inj hok] at hp
      exact hacc p hp
  | WIR wir =>
      rw [← Except.ok.inj hok] at hp
      exact hacc p hp
  | WRR wrr =>
      rw [← Except.ok.inj hok] at hp
      exact hacc p hp
  | PIR pir =>
      rw [← Except.ok.inj hok] at hp
      exact hacc p hp
  | PRR prr =>
      rw [← Except.ok.inj hok] at hp
      exact hacc p hp
  | FTR ftr =>
      rw [← Except.ok.inj hok] at hp
      exact hacc p hp
  | MPR mpr =>
      rw [← Except.ok.inj hok] at hp
      exact hacc p hp
  | other =>
      rw [← Except.ok.inj hok] at hp
      exact hacc p hp

theorem pass1_foldlM_key_consistent (rs : List Record) :
    ∀ acc fti, List.foldlM pass1Step acc rs = .ok fti →
      (∀ p ∈ acc.test_infos, p.2.test_num = p.1.1) →
      ∀ p ∈ fti.test_infos, p.2.test_num = p.1.1 := by
  induction rs with
  | nil =>
    intro acc fti hok hacc
    rw [List.foldlM_nil] at hok
    rw [← Except.ok.inj hok]
    exact hacc
  | cons r rest ih =>
    intro acc fti hok hacc
    obtain ⟨mid, hstep, hrest⟩ := foldlM_cons_ok pass1Step r rest acc fti hok
    exact ih mid fti hrest (pass1Step_key_consistent acc mid r hstep hacc)

theorem merge_step_no_key (t : ℕ) (acc mid : FullMergedTestInformation)
    (ti : TestInformation)
    (hok : acc.add_from_test_information ti = .ok mid)
    (hne : ti.test_num ≠ t)
    (hacc : alookup t acc.test_infos = none) :
    alookup t mid.test_infos = none := by
  rw [FullMergedTestInformation.add_from_test_information] at hok
  split at hok
  next mti hl =>
    cases hadd : mti.add ti with
    | error e =>
        rw [hadd] at hok
        exact Except.noConfusion hok
    | ok mti1 =>
        rw [hadd] at hok
        rw [← Except.ok.inj hok]
        rw [alookup_setVal_ne _ _ _ _ hne]
        exact hacc
  next hl =>
    rw [← Except.ok.inj hok]
    rw [alookup_append_of_none _ _ _ hacc]
    simp [alookup, hne]

theorem merge_foldlM_no_key (t : ℕ) (l : List ((ℕ × ℕ × ℕ) × TestInformation)) :
    ∀ acc out,
      List.foldlM (fun acc p => FullMergedTestInformation.add_from_test_information acc p.2)
        acc l = .ok out →
      (∀ p ∈ l, p.2.test_num ≠ t) →
      alookup t acc.test_infos = none →
      alookup t out.test_infos = none := by
  induction l with
  | nil =>
    intro acc out hok _ hacc
    rw [List.foldlM_nil] at hok
    rw [← Except.ok.inj hok]
    exact hacc
  | cons p rest ih =>
    intro acc out hok hl hacc
    obtain ⟨mid, hstep, hrest⟩ := foldlM_cons_ok _ p rest acc out hok
    exact ih mid out hrest (fun q hq => hl q (List.mem_cons_of_mem _ hq))
      (merge_step_no_key t acc mid p.2 hstep (hl p (List.mem_cons_self _ _)) hacc)

theorem merge_step_nodup (acc mid : FullMergedTestInformation) (ti : TestInformation)
    (hok : acc.add_from_test_information ti = .ok mid)
    (hacc : (acc.test_infos.map Prod.fst).Nodup) :
    (mid.test_infos.map Prod.fst).Nodup := by
  rw [FullMergedTestInformation.add_from_test_information] at hok
  split at hok
  next mti hl =>
    cases hadd : mti.add ti with
    | error e =>
        rw [hadd] at hok
        exact Except.noConfusion hok
    | ok mti1 =>
        rw [hadd] at hok
        rw [← Except.ok.inj hok]
        show ((setVal ti.test_num mti1 acc.test_infos).map Prod.fst).Nodup
        rw [setVal_map_fst]
        exact hacc
  next hl =>
    rw [← Except.ok.inj hok]
    show ((acc.test_infos ++
      [(ti.test_num, MergedTestInformation.new_from_test_information ti)]).map Prod.fst).Nodup
    rw [List.map_append]
    exact nodup_append_singleton _ _ hacc ((alookup_eq_none_iff _ _).mp hl)

theorem merge_foldlM_nodup (l : List ((ℕ × ℕ × ℕ) × TestInformation)) :
    ∀ acc out,
      List.foldlM (fun acc p => FullMergedTestInformation.add_from_test_information acc p.2)
        acc l = .ok out →
      (acc.test_infos.map Prod.fst).Nodup →
      (out.test_infos.map Prod.fst).Nodup := by
  induction l with
  | nil =>
    intro acc out hok hacc
    rw [List.foldlM_nil] at hok
    rw [← Except.ok.inj hok]
    exact hacc
  | cons p rest ih =>
    intro acc out hok hacc
    obtain ⟨mid, hstep, hrest⟩ := foldlM_cons_ok _ p rest acc out hok
    exact ih mid out hrest (merge_step_nodup acc mid p.2 hstep hacc)

theorem TestData_new_ok (fti : FullTestInformation) (td : TestData)
    (h : TestData.new fti = .ok td) :
    fti.merge = .ok td.test_information ∧
    td.index_lookup = (buildLayout td.test_information.test_infos).index_lookup ∧
    td.n_para = (buildLayout td.test_information.test_infos).n_para ∧
    td.n_func = (buildLayout td.test_information.test_infos).n_func ∧
    td.n_mult = (buildLayout td.test_information.test_infos).n_mult := by
  rw [TestData.new] at h
  cases hm : fti.merge with
  | error e =>
      rw [hm] at h
      exact Except.noConfusion h
  | ok fmti =>
      rw [hm] at h
      obtain rfl := Except.ok.inj h
      exact ⟨rfl, rfl, rfl, rfl, rfl⟩

theorem alookup_isSome_of_mem {κ α : Type} [DecidableEq κ] (k : κ) (v : α)
    (l : List (κ × α)) (h : (k, v) ∈ l) : (alookup k l).isSome := by
  induction l with
  | nil => simp at h
  | cons p rest ih =>
    obtain ⟨k1, v1⟩ := p
    by_cases hk : k1 = k
    · simp [alookup, hk]
    · rw [alookup, if_neg hk]
      rcases List.mem_cons.mp h with h1 | h1
      · exact absurd (congrArg Prod.fst h1).symm hk
      · exact ih h1

/-- A completed functional-test metadata entry for test 1 on (head 1,
site 1). -/
def c9TIF : TestInformation :=
  { test_num := 1, head_num := 1, site_num := 1, test_type := .F,
    execution_count := 1, test_name := "", sequence_name := "", test_label := "",
    test_time := F32.nan, test_text := "", llm_scal := 0, hlm_scal := 0,
    res_scal := 0, lo_spec := F32.nan, hi_spec := F32.nan, low_limit := F32.nan,
    high_limit := F32.nan, units := "", complete := .Complete }

/-- A metadata table whose only test (test 1) is functional. -/
def c9FTI : FullTestInformation := ⟨[((1, 1, 1), c9TIF)]⟩

/-- A part-start for (head 1, site 1). -/
def c9PIR : PIR := { head_num := 1, site_num := 1 }

/-- A parametric result record claiming test 1 — whose merged category is
functional, not parametric. -/
def c9PTR : PTR :=
  { test_num := 1, head_num := 1, site_num := 1, test_flg := 0, parm_flg := 0,
    result := F32.nan, test_txt := "", alarm_id := "", opt_flag := 0,
    res_scal := 0, llm_scal := 0, hlm_scal := 0, lo_limit := F32.nan,
    hi_limit := F32.nan, units := "", lo_spec := F32.nan, hi_spec := F32.nan }

/-- C9: the shared `index_lookup` is in bounds for a result write exactly
under category agreement — for every pipeline `TestData`, a `test_num`
whose merged category is parametric has a slot strictly below `n_para`
(so the `results_parametric` write of `add_data_ptr` is in bounds), one
whose merged category is functional has a slot strictly below `n_func`
(bounding the `results_functional` write of `add_data_ftr`), and one
whose merged category is multi-value has a slot strictly below `n_mult`
(bounding the `results_multi_pin` write of `add_data_mpr`) — while a
result record whose kind disagrees with the merged category can index
past the end of the target vector: on the concrete one-functional-test
pipeline a PTR for that test makes the parametric write an out-of-bounds
index (a panic in the source). -/
theorem c9_slot_bounds :
    (∀ (fti : FullTestInformation) (td : TestData), TestData.new fti = .ok td →
      ∀ t mti, alookup t td.test_information.test_infos = some mti →
        (mti.test_type = .P →
          ∃ i, alookup t td.index_lookup = some i ∧ i < td.n_para) ∧
        (mti.test_type = .F →
          ∃ i, alookup t td.index_lookup = some i ∧ i < td.n_func) ∧
        (mti.test_type = .M →
          ∃ i, alookup t td.index_lookup = some i ∧ i < td.n_mult)) ∧
    ((do
        let td ← TestData.new c9FTI
        let td1 ← td.new_part c9PIR
        td1.add_data_ptr c9PTR) = Except.error StdfError.indexOutOfBounds) := by
  constructor
  · intro fti td hnew t mti hlk
    obtain ⟨hm, hidx, hnp, hnf, hnm⟩ := TestData_new_ok fti td hnew
    rw [FullTestInformation.merge] at hm
    have hnd : (td.test_information.test_infos.map Prod.fst).Nodup :=
      merge_foldlM_nodup fti.test_infos _ _ hm (by simp [FullMergedTestInformation.new])
    have hmem := mem_of_alookup_eq_some _ _ _ hlk
    refine ⟨?_, ?_, ?_⟩
    · intro htype
      obtain ⟨i, hi1, hi2, _⟩ :=
        ((c4_layout_bijectivity td.test_information.test_infos hnd).1 .P rfl).2.1 t mti
          hmem htype
      refine ⟨i, ?_, ?_⟩
      · rw [hidx]
        exact hi1
      · rw [hnp]
        exact hi2
    · intro htype
      obtain ⟨i, hi1, hi2, _⟩ :=
        ((c4_layout_bijectivity td.test_information.test_infos hnd).1 .F rfl).2.1 t mti
          hmem htype
      refine ⟨i, ?_, ?_⟩
      · rw [hidx]
        exact hi1
      · rw [hnf]
        exact hi2
    · intro htype
      obtain ⟨i, hi1, hi2, _⟩ :=
        ((c4_layout_bijectivity td.test_information.test_infos hnd).1 .M rfl).2.1 t mti
          hmem htype
      refine ⟨i, ?_, ?_⟩
      · rw [hidx]
        exact hi1
      · rw [hnm]
        exact hi2
  · decide

/-- A metadata table with one parametric test (2), one functional test
(3) and one multi-value test (4). -/
def c9FTI3 : FullTestInformation :=
  ⟨[((2, 1, 1), { c9TIF with test_num := 2, test_type := .P }),
    ((3, 1, 1), { c9TIF with test_num := 3, test_type := .F }),
    ((4, 1, 1), { c9TIF with test_num := 4, test_type := .M })]⟩

/-- The `TestData` built from `c9FTI3`. -/
def c9TD3 : TestData := (TestData.new c9FTI3).toOption.get (by decide)

/-- Witness for C9: on `c9TD3` the parametric test 2, the functional
test 3 and the multi-value test 4 each have a slot in bounds for their
own partition. -/
theorem c9_slot_bounds_witness :
    (∃ i, alookup 2 c9TD3.index_lookup = some i ∧ i < c9TD3.n_para) ∧
    (∃ i, alookup 3 c9TD3.index_lookup = some i ∧ i < c9TD3.n_func) ∧
    (∃ i, alookup 4 c9TD3.index_lookup = some i ∧ i < c9TD3.n_mult) :=
  ⟨(c9_slot_bounds.1 c9FTI3 c9TD3 (by decide) 2
      ((alookup 2 c9TD3.test_information.test_infos).get (by decide))
      (Option.some_get _).symm).1 (by decide),
   (c9_slot_bounds.1 c9FTI3 c9TD3 (by decide) 3
      ((alookup 3 c9TD3.test_information.test_infos).get (by decide))
      (Option.some_get _).symm).2.1 (by decide),
   (c9_slot_bounds.1 c9FTI3 c9TD3 (by decide) 4
      ((alookup 4 c9TD3.test_information.test_infos).get (by decide))
      (Option.some_get _).symm).2.2 (by decide)⟩

/-- C10: pass 1 consumes only TSR and PTR records — an FTR or MPR record
leaves the metadata table unchanged; consequently a `test_num` appearing
in no TSR and no PTR of the stream has no metadata entry at any
(site, head), no slot in the column layout of `TestData::new`, and an FTR
or MPR carrying it in pass 2 takes a fatal path (not-open or
unknown-test_num). -/
theorem c10_pass1_only_tsr_ptr :
    (∀ (fti : FullTestInformation) (ftr : FTR) (mpr : MPR),
      pass1Step fti (.FTR ftr) = .ok fti ∧ pass1Step fti (.MPR mpr) = .ok fti) ∧
    (∀ (rs : List Record) (fti : FullTestInformation) (t : ℕ),
      FullTestInformation.from_records rs = .ok fti →
      (∀ r ∈ rs, (∀ tsr, r = Record.TSR tsr → tsr.test_num ≠ t) ∧
        (∀ ptr, r = Record.PTR ptr → ptr.test_num ≠ t)) →
      (∀ s h, alookup (t, s, h) fti.test_infos = none) ∧
      (∀ td, TestData.new fti = .ok td → alookup t td.index_lookup = none)) ∧
    (∀ (td : TestData) (ftr : FTR) (mpr : MPR),
      alookup ftr.test_num td.index_lookup = none →
      alookup mpr.test_num td.index_lookup = none →
      (td.add_data_ftr ftr = .error .notOpen ∨
        td.add_data_ftr ftr = .error .unknownTestNum) ∧
      (td.add_data_mpr mpr = .error .notOpen ∨
        td.add_data_mpr mpr = .error .unknownTestNum)) := by
  refine ⟨?_, ?_, ?_⟩
  · intro fti ftr mpr
    exact ⟨rfl, rfl⟩
  · intro rs fti t hok hr
    rw [FullTestInformation.from_records] at hok
    have hnokey : ∀ s h, alookup (t, s, h) fti.test_infos = none :=
      pass1_foldlM_no_key t rs _ _ hok hr (fun s h => rfl)
    have hkeycons : ∀ p ∈ fti.test_infos, p.2.test_num = p.1.1 :=
      pass1_foldlM_key_consistent rs _ _ hok
        (by intro p hp; simp [FullTestInformation.new] at hp)
    refine ⟨hnokey, ?_⟩
    intro td hnew
    obtain ⟨hm, hidx, _⟩ := TestData_new_ok fti td hnew
    rw [FullTestInformation.merge] at hm
    have hmerged_none : alookup t td.test_information.test_infos = none := by
      apply merge_foldlM_no_key t fti.test_infos _ _ hm ?_ rfl
      intro p hp heq
      have hkc := hkeycons p hp
      have hsome := alookup_isSome_of_mem p.1 p.2 fti.test_infos (by simpa using hp)
      have ht1 : p.1.1 = t := hkc.symm.trans heq
      rw [show p.1 = (t, p.1.2.1, p.1.2.2) from by rw [← ht1]] at hsome
      rw [hnokey p.1.2.1 p.1.2.2] at hsome
      simp at hsome
    rw [hidx, buildLayout_index]
    apply alookup_mixedEntries_none
    intro m hm2
    exfalso
    have hmem :=
      (List.perm_insertionSort keyLE td.test_information.test_infos).mem_iff.mp hm2
    exact absurd (List.mem_map_of_mem Prod.fst hmem)
      ((alookup_eq_none_iff t _).mp hmerged_none)
  · intro td ftr mpr hf hmz
    constructor
    · cases hx : alookup (ftr.head_num, ftr.site_num) td.temp_rows with
      | none =>
          left
          simp [TestData.add_data_ftr, hx]
      | some row =>
          right
          simp [TestData.add_data_ftr, hx, hf]
    · cases hml : alookup mpr.test_num td.mpr_index_lookup with
      | none =>
          cases hx : alookup (mpr.head_num, mpr.site_num) td.temp_rows with
          | none =>
              left
              simp [TestData.add_data_mpr, hml, hx]
          | some row =>
              right
              simp [TestData.add_data_mpr, hml, hx, hmz]
      | some v =>
          cases hx : alookup (mpr.head_num, mpr.site_num) td.temp_rows with
          | none =>
              left
              simp [TestData.add_data_mpr, hml, hx]
          | some row =>
              right
              simp [TestData.add_data_mpr, hml, hx, hmz]

/-- A functional result for test 42, a test no TSR or PTR mentions. -/
def c10FTR : FTR :=
  { test_num := 42, head_num := 1, site_num := 1, test_flg := 0, opt_flag := 0 }

/-- A multi-value result for test 42. -/
def c10MPR : MPR :=
  { test_num := 42, head_num := 1, site_num := 1, test_flg := 0, parm_flg := 0,
    rtn_stat := [], rtn_rslt := [], rtn_indx := [] }

/-- A `TestData` with an empty column layout and no open rows. -/
def c10TD : TestData :=
  { full_test_information := ⟨[]⟩
    test_information := ⟨[]⟩
    index_lookup := []
    data := []
    mpr_index_lookup := []
    temp_rows := []
    n_para := 0
    n_func := 0
    n_mult := 0
    reverse_lookup_para := []
    reverse_lookup_func := []
    reverse_lookup_mult := []
    wir := none }

/-- Witness for C10 on the one-record stream [FTR(test 42)]. -/
theorem c10_pass1_only_tsr_ptr_witness :
    pass1Step FullTestInformation.new (.FTR c10FTR) = .ok FullTestInformation.new ∧
    (∀ s h, alookup (42, s, h) FullTestInformation.new.test_infos = none) ∧
    (∀ td, TestData.new FullTestInformation.new = .ok td →
      alookup 42 td.index_lookup = none) ∧
    (c10TD.add_data_ftr c10FTR = .error .notOpen ∨
      c10TD.add_data_ftr c10FTR = .error .unknownTestNum) := by
  have hr : ∀ r ∈ [Record.FTR c10FTR],
      (∀ tsr, r = Record.TSR tsr → tsr.test_num ≠ 42) ∧
      (∀ ptr, r = Record.PTR ptr → ptr.test_num ≠ 42) := by
    intro r hrr
    rw [List.mem_singleton] at hrr
    subst hrr
    exact ⟨fun tsr h => Record.noConfusion h, fun ptr h => Record.noConfusion h⟩
  have h2 := c10_pass1_only_tsr_ptr.2.1 [Record.FTR c10FTR] FullTestInformation.new 42
    (by decide) hr
  exact ⟨(c10_pass1_only_tsr_ptr.1 FullTestInformation.new c10FTR c10MPR).1, h2.1, h2.2,
    (c10_pass1_only_tsr_ptr.2.2 c10TD c10FTR c10MPR (by decide) (by decide)).1⟩
